import Mathlib

/-!
Verification of the Arabic legal-document search engine
(`enhanced_legal_search.py` / `legal_search.py`).

The development shallowly embeds the two Python modules:

* the segmentation pipeline `parse_markdown_document_enhanced`
  (a line-oriented state machine over page texts),
* the SQLite-backed catalog and FTS indexes used by
  `index_document_enhanced` / `index_document` (modelled as explicit
  relational stores with the insert/replace/delete/trigger semantics the
  code relies on),
* the query operations `search` / `search_enhanced`, and
* the snippet highlighter `_highlight_matches`.

Python strings are modelled as Lean `String` (lists of Unicode code
points), Python `len`/`strip`/`split`/`startswith`/`lower` as the
`py…` helpers below, and machine-level details (SQLite file format,
FTS5 ranking weights) are abstracted at the level the specification
itself uses: a record matches a query when every whitespace-separated,
case-folded query term occurs among the record's tokens, and `ORDER BY
rank` is modelled as a deterministic order (membership-level claims do
not depend on the particular permutation).
-/

set_option maxHeartbeats 1000000

namespace LegalSearch

/-! ## Python string primitives -/

/-- Whitespace per Python `str.strip` / `str.split()` (ASCII subset;
the documents and queries in play use ASCII space/newline separators). -/
def isPySpace (c : Char) : Bool :=
  c = ' ' || c = '\t' || c = '\n' || c = '\r' || c = '\x0b' || c = '\x0c'

/-- Python `str.strip()`. -/
def pyStrip (s : String) : String :=
  ⟨((s.data.dropWhile isPySpace).reverse.dropWhile isPySpace).reverse⟩

/-- Python `len` on a string (number of code points). -/
def pyLen (s : String) : Nat := s.data.length

/-- Splitting a character list on a separator character; mirrors
Python `str.split(sep)` (keeps empty pieces). -/
def splitCharAux (sep : Char) : List Char → List (List Char)
  | [] => [[]]
  | c :: cs =>
    let r := splitCharAux sep cs
    if c = sep then [] :: r
    else
      match r with
      | h :: t => (c :: h) :: t
      | [] => [[c]]

/-- Python `s.split('\n')`. -/
def splitNL (s : String) : List String :=
  (splitCharAux '\n' s.data).map String.mk

/-- Python `'\n'.join(xs)`. -/
def joinNL : List String → String
  | [] => ""
  | [x] => x
  | x :: xs => x ++ "\n" ++ joinNL xs

/-- Python `str.split()` (split on whitespace runs, dropping empties),
on character lists. -/
def wsplit : List Char → List (List Char)
  | [] => []
  | c :: cs =>
    if isPySpace c then wsplit cs
    else
      match cs, wsplit cs with
      | [], _ => [[c]]
      | c2 :: _, r =>
        if isPySpace c2 then [c] :: r
        else
          match r with
          | w :: ws => (c :: w) :: ws
          | [] => [[c]]

/-- Python `str.split()` on strings. -/
def pySplitWs (s : String) : List String := (wsplit s.data).map String.mk

/-- ASCII lower-casing of one character (Python `str.lower` restricted
to ASCII; the Arabic letters involved have no case). -/
def lowerChar (c : Char) : Char :=
  match c with
  | 'A' => 'a' | 'B' => 'b' | 'C' => 'c' | 'D' => 'd' | 'E' => 'e'
  | 'F' => 'f' | 'G' => 'g' | 'H' => 'h' | 'I' => 'i' | 'J' => 'j'
  | 'K' => 'k' | 'L' => 'l' | 'M' => 'm' | 'N' => 'n' | 'O' => 'o'
  | 'P' => 'p' | 'Q' => 'q' | 'R' => 'r' | 'S' => 's' | 'T' => 't'
  | 'U' => 'u' | 'V' => 'v' | 'W' => 'w' | 'X' => 'x' | 'Y' => 'y'
  | 'Z' => 'z'
  | c => c

/-- Case-folding a whole string. -/
def lowerStr (s : String) : String := ⟨s.data.map lowerChar⟩

/-- Prefix test on character lists (Python `str.startswith`). -/
def startsWithL : List Char → List Char → Bool
  | [], _ => true
  | _ :: _, [] => false
  | k :: ks, c :: cs => k = c && startsWithL ks cs

/-- Python `line.startswith(kw)`. -/
def startsKw (kw : List Char) (s : String) : Bool := startsWithL kw s.data

/-! ## The segmenter (`parse_markdown_document_enhanced`, lines 146-259)

The `re.split(r'^## Page (\d+)', ...)` page chopping (line 155) pairs
each page number with the text that follows its marker; the parser below
starts from that list of `(page number, page text)` pairs (source lines
161-163) and embeds the per-line state machine verbatim. -/

/-- The keyword opening a chapter marker line: `الباب`. -/
def chapterKw : List Char := ['ا', 'ل', 'ب', 'ا', 'ب']

/-- The keyword opening a section marker line: `الفصل`. -/
def sectionKw : List Char := ['ا', 'ل', 'ف', 'ص', 'ل']

/-- The literal prefix of an article marker after any bold wrapper:
`المادة (` (including the space and the opening parenthesis). -/
def articleKw : List Char := ['ا', 'ل', 'م', 'ا', 'د', 'ة', ' ', '(']

/-- `re.match(r'^(?:\*\*)?المادة \(([^)]+)\)(?:\*\*)?', line)` (source
line 196).  The optional bold wrapper is consumed when present; the
capture group is the maximal nonempty run of non-`)` characters, which
must be followed by `)`.  The trailing optional `(?:\*\*)?` constrains
nothing (`re.match` anchors only the start). -/
def matchArticleMarker (line : String) : Option String :=
  let l0 := line.data
  let l := if startsWithL ['*', '*'] l0 then l0.drop 2 else l0
  if startsWithL articleKw l then
    let rest := l.drop articleKw.length
    let label := rest.takeWhile (fun c => c != ')')
    if label.isEmpty then none
    else if (rest.drop label.length).head? = some ')' then some ⟨label⟩
    else none
  else none

/-- One emitted legal unit (the dict appended to `articles`;
`sect` embeds the Python key `'section'`, a Lean keyword). -/
structure Article where
  id : Nat
  document_name : String
  page_number : Nat
  chapter : String
  sect : String
  article_number : String
  title : String
  content : String
  article_type : String
  position_in_page : Nat
deriving DecidableEq, Repr

/-- Scan state of the line loop (source lines 157-159 and 174-178). -/
structure St where
  current_chapter : String
  current_section : String
  article_id : Nat
  current_article_content : List String
  current_article_number : String
  current_article_title : String
  in_article : Bool
  position_in_page : Nat
  articles : List Article
deriving DecidableEq, Repr

/-- Closing out the article being accumulated (source lines 199-212 and
243-256): a unit is emitted only when an article is open AND its
accumulated body is non-empty. -/
def flushArticle (document_name : String) (page_num : Nat) (st : St) : St :=
  if st.in_article && !st.current_article_content.isEmpty then
    { st with
      article_id := st.article_id + 1,
      articles := st.articles ++
        [{ id := st.article_id + 1
           document_name := document_name
           page_number := page_num
           chapter := st.current_chapter
           sect := st.current_section
           article_number := st.current_article_number
           title := st.current_article_title
           content := joinNL st.current_article_content
           article_type := "article"
           position_in_page := st.position_in_page }] }
  else st

/-- The body of the `for line_idx, line in enumerate(lines)` loop
(source lines 180-240). -/
def processLine (document_name : String) (page_num : Nat) (line_idx : Nat)
    (raw : String) (st : St) : St :=
  let line := pyStrip raw
  if line = "" then st
  else if startsKw chapterKw line then { st with current_chapter := line }
  else if startsKw sectionKw line then { st with current_section := line }
  else
    match matchArticleMarker line with
    | some label =>
      let st1 := flushArticle document_name page_num st
      { st1 with
        current_article_number := label,
        current_article_title := "",
        current_article_content := [],
        in_article := true,
        position_in_page := line_idx }
    | none =>
      if st.in_article then
        { st with current_article_content := st.current_article_content ++ [line] }
      else if 10 < pyLen line then
        { st with
          article_id := st.article_id + 1,
          articles := st.articles ++
            [{ id := st.article_id + 1
               document_name := document_name
               page_number := page_num
               chapter := st.current_chapter
               sect := st.current_section
               article_number := ""
               title := ""
               content := line
               article_type := "general"
               position_in_page := line_idx }] }
      else st

/-- Folding `processLine` over the enumerated lines of one page. -/
def scanLines (document_name : String) (page_num : Nat) :
    Nat → List String → St → St
  | _, [], st => st
  | i, l :: ls, st =>
    scanLines document_name page_num (i + 1) ls
      (processLine document_name page_num i l st)

/-- The state carried from page to page (`current_chapter`,
`current_section`, `article_id` and the accumulated output; source
lines 157-159). -/
structure DocSt where
  current_chapter : String
  current_section : String
  article_id : Nat
  articles : List Article
deriving DecidableEq, Repr

/-- The per-page locals are re-initialised at the top of the page loop
(source lines 174-178). -/
def pageInitState (d : DocSt) : St :=
  { current_chapter := d.current_chapter
    current_section := d.current_section
    article_id := d.article_id
    current_article_content := []
    current_article_number := ""
    current_article_title := ""
    in_article := false
    position_in_page := 0
    articles := d.articles }

/-- One iteration of the page loop (source lines 161-256): strip the
page text, scan its lines, and flush a still-open article at end of
page. -/
def processPage (document_name : String) (d : DocSt) (page : Nat × String) : DocSt :=
  let page_content := pyStrip page.2
  let lines := splitNL page_content
  let fin := flushArticle document_name page.1
    (scanLines document_name page.1 0 lines (pageInitState d))
  { current_chapter := fin.current_chapter
    current_section := fin.current_section
    article_id := fin.article_id
    articles := fin.articles }

/-- A stored full page (`PageContent`, source lines 14-19). -/
structure PageContent where
  page_number : Nat
  content : String
  document_name : String
deriving DecidableEq, Repr

/-- `parse_markdown_document_enhanced` (source lines 146-259), starting
from the `(page number, page text)` pairs produced by the page-marker
split.  Returns the stored pages and the emitted legal units. -/
def parse_markdown_document_enhanced (document_name : String)
    (pages : List (Nat × String)) : List PageContent × List Article :=
  let pages_content := pages.map fun p =>
    { page_number := p.1, content := pyStrip p.2, document_name := document_name }
  let fin := pages.foldl (processPage document_name)
    { current_chapter := "", current_section := "", article_id := 0, articles := [] }
  (pages_content, fin.articles)

/-! ## Spec-side views of the carried chapter/section state (claim C6) -/

/-- Does this raw line (once stripped) update `current_chapter`?
(Non-blank and starts with the chapter keyword; source line 186.) -/
def chapterLine (raw : String) : Bool :=
  pyStrip raw != "" && startsKw chapterKw (pyStrip raw)

/-- Does this raw line (once stripped) update `current_section`?
(Non-blank and starts with the section keyword; source line 191.) -/
def sectionLine (raw : String) : Bool :=
  pyStrip raw != "" && startsKw sectionKw (pyStrip raw)

/-- The stripped text of the most recent marker line in `ls` (per the
marker test `isM`), or `init` when no such line occurs. -/
def lastMarker (isM : String → Bool) (init : String) (ls : List String) : String :=
  ls.foldl (fun acc l => if isM l then pyStrip l else acc) init

/-- All lines of a document, in scan order: each page's stripped text,
split on newlines, concatenated across pages. -/
def allLines (pages : List (Nat × String)) : List String :=
  (pages.map (fun p => splitNL (pyStrip p.2))).flatten

/-! ## The snippet highlighter (`_highlight_matches`)

`legal_search.py` lines 291-301 and `enhanced_legal_search.py` lines
340-350: split the query on whitespace; for each word longer than two
characters, `re.compile(re.escape(word), re.IGNORECASE).sub(marker,
text)` replaces every leftmost non-overlapping case-insensitive
occurrence of the word by the marker-wrapped QUERY word.  `re.sub` is
embedded as a fuel-indexed scanner (`fuel = length of the text` always
suffices, since every step consumes at least one character). -/

/-- Does `w` occur case-insensitively at the head of `s`? -/
def ciStarts (w s : List Char) : Bool :=
  (s.take w.length).map lowerChar == w.map lowerChar

/-- `re.sub(re.escape(w), repl, s)` with `re.IGNORECASE`, on character
lists, with explicit fuel (sufficient whenever `s.length ≤ fuel`). -/
def reSubFuel (w repl : List Char) : Nat → List Char → List Char
  | _, [] => []
  | 0, s => s
  | fuel + 1, c :: cs =>
    if !w.isEmpty && ciStarts w (c :: cs) then
      repl ++ reSubFuel w repl fuel ((c :: cs).drop w.length)
    else c :: reSubFuel w repl fuel cs

/-- `re.sub(re.escape(w), repl, t, flags=re.IGNORECASE)` on strings,
modelled for replacement strings that contain no backslash: template
parsing of such a `repl` yields the literal string, so the substitution
inserts `repl` verbatim.  (A backslash in `repl` would instead engage
`re.sub`'s replacement-template processing — an invalid escape such as
`\d` raises `re.error` even with zero matches, a valid one such as `\n`
expands — which is outside this model; the theorems that use `pyReSub`
on the highlighters' `f'..{word}..'` replacements therefore carry a
backslash-freeness hypothesis on the query words.  The pattern `w` is a
literal word; callers pass words of length at least 3, hence
non-empty.) -/
def pyReSub (w repl t : String) : String :=
  ⟨reSubFuel w.data repl.data t.data.length t.data⟩

/-- The pieces of `s` lying between successive leftmost non-overlapping
case-insensitive occurrences of `w` (the spec-side view of `re.sub`:
occurrences are exactly the gaps between these pieces). -/
def ciSplitFuel (w : List Char) : Nat → List Char → List (List Char)
  | _, [] => [[]]
  | 0, s => [s]
  | fuel + 1, c :: cs =>
    if !w.isEmpty && ciStarts w (c :: cs) then
      [] :: ciSplitFuel w fuel ((c :: cs).drop w.length)
    else
      match ciSplitFuel w fuel cs with
      | h :: t => (c :: h) :: t
      | [] => [[c]]

/-- `ciSplitFuel` on strings. -/
def ciSplit (w s : String) : List String :=
  (ciSplitFuel w.data s.data.length s.data).map String.mk

/-- Interleaving a separator between pieces (character-list level). -/
def joinInterL (sep : List Char) : List (List Char) → List Char
  | [] => []
  | [x] => x
  | x :: xs => x ++ sep ++ joinInterL sep xs

/-- Interleaving a separator between string pieces. -/
def joinWith (sep : String) : List String → String
  | [] => ""
  | [x] => x
  | x :: xs => x ++ sep ++ joinWith sep xs

/-- `LegalSearchEngine._highlight_matches` (legal_search.py lines
291-301): marker `**word**`. -/
def LegalSearchEngine._highlight_matches (text query : String) : String :=
  (pySplitWs query).foldl
    (fun highlighted_text word =>
      if 2 < pyLen word then
        pyReSub word ("**" ++ word ++ "**") highlighted_text
      else highlighted_text)
    text

/-- `EnhancedLegalSearchEngine._highlight_matches`
(enhanced_legal_search.py lines 340-350): marker
`<mark class="highlight">word</mark>`. -/
def EnhancedLegalSearchEngine._highlight_matches (text query : String) : String :=
  (pySplitWs query).foldl
    (fun highlighted_text word =>
      if 2 < pyLen word then
        pyReSub word ("<mark class=\"highlight\">" ++ word ++ "</mark>") highlighted_text
      else highlighted_text)
    text

/-! ## The catalog and indexes (SQLite state)

The engine's SQLite database (schema at `enhanced_legal_search.py`
lines 29-144) is modelled as explicit relational stores.  The FTS
tables are external-content FTS5 tables kept in lockstep with their
base tables by the `articles_ai`/`articles_ad`/`pages_ai`/`pages_ad`
triggers; each modelled mutation applies the trigger effect inline.
`DBConn` separates the connection-visible state (`store`, which
includes uncommitted changes — every read in the module runs on the
same connection) from the durably `committed` state (updated by
`conn.commit()`; the code never calls `rollback`). -/

/-- A row of `documents` (unique `name`, AUTOINCREMENT `id`). -/
structure DocumentRow where
  id : Nat
  name : String
  title : String
  file_path : String
  pages_count : Nat
deriving DecidableEq, Repr

/-- A row of `pages` (UNIQUE(document_id, page_number)). -/
structure PageRow where
  id : Nat
  document_id : Nat
  page_number : Nat
  content : String
deriving DecidableEq, Repr

/-- A row of `articles` (`sect` embeds the column `section`). -/
structure ArticleRow where
  id : Nat
  document_id : Nat
  page_id : Option Nat
  page_number : Nat
  chapter : String
  sect : String
  article_number : String
  title : String
  content : String
  article_type : String
  position_in_page : Nat
deriving DecidableEq, Repr

/-- A row of `articles_fts`; `document_name` is resolved by the
`articles_ai` trigger at insert time. -/
structure ArticleFtsRow where
  article_id : Nat
  document_name : String
  page_number : Nat
  chapter : String
  sect : String
  article_number : String
  title : String
  content : String
deriving DecidableEq, Repr

/-- A row of `pages_fts` (`pages_ai` trigger). -/
structure PageFtsRow where
  page_id : Nat
  document_name : String
  page_number : Nat
  content : String
deriving DecidableEq, Repr

/-- The five tables plus the AUTOINCREMENT next-rowid counters
(`sqlite_sequence`; AUTOINCREMENT never reuses a deleted rowid). -/
structure Store where
  documents : List DocumentRow
  pages : List PageRow
  articles : List ArticleRow
  articles_fts : List ArticleFtsRow
  pages_fts : List PageFtsRow
  next_document_rowid : Nat
  next_page_rowid : Nat
  next_article_rowid : Nat
deriving DecidableEq, Repr

/-- The sqlite3 connection: `store` is what statements on this
connection see (including uncommitted changes), `committed` what is
durable on disk. -/
structure DBConn where
  store : Store
  committed : Store
deriving DecidableEq, Repr

/-- A store with empty tables; AUTOINCREMENT rowids start at 1. -/
def emptyStore : Store :=
  { documents := [], pages := [], articles := [], articles_fts := [], pages_fts := [],
    next_document_rowid := 1, next_page_rowid := 1, next_article_rowid := 1 }

/-- A fresh connection over an empty database. -/
def emptyDB : DBConn := { store := emptyStore, committed := emptyStore }

/-- Contents of a file: readable pages (the document text after the
`## Page` split), or bytes that fail UTF-8 decoding
(`open(..., encoding='utf-8').read()` raises `UnicodeDecodeError`). -/
inductive FileContent where
  | valid (pages : List (Nat × String))
  | invalidUtf8
deriving DecidableEq, Repr

/-- The file system visible to `os.path.exists` / `open`. -/
abbrev FileSystem := List (String × FileContent)

/-- Path lookup; `none` models `os.path.exists(file_path)` false. -/
def fsLookup (fs : FileSystem) (path : String) : Option FileContent :=
  (fs.find? (fun e => e.1 == path)).map (fun e => e.2)

/-- The errors `index_document_enhanced` can raise: `FileNotFoundError`
(line 264), `UnicodeDecodeError` (file read, line 151-152), and
`sqlite3.IntegrityError` (UNIQUE violation on the pages insert,
lines 284-287). -/
inductive IndexError where
  | fileNotFound
  | unicodeDecodeError
  | integrityError
deriving DecidableEq, Repr

/-- `INSERT OR REPLACE INTO documents (name, title, file_path,
pages_count) VALUES (?, ?, ?, 0)` (lines 267-272): any row with the
same unique `name` is deleted and a fresh row is inserted under a NEW
AUTOINCREMENT rowid (the old id is never reused); `cursor.lastrowid`
is that new id.  No trigger fires on `documents`. -/
def insertOrReplaceDocument (s : Store) (name title file_path : String) : Store × Nat :=
  let newId := s.next_document_rowid
  ({ s with
      documents := s.documents.filter (fun d => d.name != name) ++
        [{ id := newId, name := name, title := title, file_path := file_path,
           pages_count := 0 }],
      next_document_rowid := newId + 1 },
   newId)

/-- `DELETE FROM articles WHERE document_id = ?` (line 275) plus the
`articles_ad` trigger removing the matching `articles_fts` rows. -/
def deleteArticlesByDoc (s : Store) (document_id : Nat) : Store :=
  let deleted := s.articles.filter (fun a => a.document_id == document_id)
  { s with
    articles := s.articles.filter (fun a => a.document_id != document_id),
    articles_fts := s.articles_fts.filter
      (fun f => deleted.all (fun a => a.id != f.article_id)) }

/-- `DELETE FROM pages WHERE document_id = ?` (line 276) plus the
`pages_ad` trigger. -/
def deletePagesByDoc (s : Store) (document_id : Nat) : Store :=
  let deleted := s.pages.filter (fun p => p.document_id == document_id)
  { s with
    pages := s.pages.filter (fun p => p.document_id != document_id),
    pages_fts := s.pages_fts.filter
      (fun f => deleted.all (fun p => p.id != f.page_id)) }

/-- The `articles_ai`/`pages_ai` triggers resolve
`(SELECT name FROM documents WHERE id = new.document_id)`. -/
def docNameOf (s : Store) (document_id : Nat) : String :=
  ((s.documents.find? (fun d => d.id == document_id)).map (fun d => d.name)).getD ""

/-- `INSERT INTO pages (document_id, page_number, content)` (lines
284-287): a plain INSERT — violating UNIQUE(document_id, page_number)
raises `sqlite3.IntegrityError` and leaves the table unchanged.  On
success the `pages_ai` trigger appends the `pages_fts` row and
`cursor.lastrowid` is returned. -/
def insertPage (s : Store) (document_id page_number : Nat) (content : String) :
    Option (Store × Nat) :=
  if s.pages.any (fun p => p.document_id == document_id && p.page_number == page_number) then
    none
  else
    let newId := s.next_page_rowid
    some
      ({ s with
          pages := s.pages ++
            [{ id := newId, document_id := document_id, page_number := page_number,
               content := content }],
          pages_fts := s.pages_fts ++
            [{ page_id := newId, document_name := docNameOf s document_id,
               page_number := page_number, content := content }],
          next_page_rowid := newId + 1 },
       newId)

/-- The `for page in pages_content` insert loop (lines 282-288),
building the `page_ids` dict; on an IntegrityError the loop stops with
the rows inserted so far left pending on the connection. -/
def insertPagesLoop (document_id : Nat) :
    Store → List (Nat × Nat) → List PageContent → Store × List (Nat × Nat) × Bool
  | s, page_ids, [] => (s, page_ids, true)
  | s, page_ids, p :: rest =>
    match insertPage s document_id p.page_number p.content with
    | none => (s, page_ids, false)
    | some (s1, pid) =>
      insertPagesLoop document_id s1 (page_ids ++ [(p.page_number, pid)]) rest

/-- Python dict lookup `page_ids.get(k)`: the LAST binding wins. -/
def dictGet (m : List (Nat × Nat)) (k : Nat) : Option Nat :=
  (m.reverse.find? (fun kv => kv.1 == k)).map (fun kv => kv.2)

/-- Pairing each element with consecutive rowids starting at `n`. -/
def enumFrom' (n : Nat) : List LegalSearch.Article → List (Nat × LegalSearch.Article)
  | [] => []
  | a :: as => (n, a) :: enumFrom' (n + 1) as

/-- The `articles` row built from one parsed unit (lines 291-302);
`page_id = page_ids.get(article['page_number'])`. -/
def articleRowOf (document_id : Nat) (page_ids : List (Nat × Nat)) (rowid : Nat)
    (u : Article) : ArticleRow :=
  { id := rowid, document_id := document_id,
    page_id := dictGet page_ids u.page_number,
    page_number := u.page_number, chapter := u.chapter, sect := u.sect,
    article_number := u.article_number, title := u.title, content := u.content,
    article_type := u.article_type, position_in_page := u.position_in_page }

/-- The `articles_fts` row appended by the `articles_ai` trigger for
one inserted article row. -/
def ftsRowOfArticle (document_name : String) (a : ArticleRow) : ArticleFtsRow :=
  { article_id := a.id, document_name := document_name,
    page_number := a.page_number, chapter := a.chapter, sect := a.sect,
    article_number := a.article_number, title := a.title, content := a.content }

/-- The `for article in articles` insert loop (lines 290-302): each
article row takes the next AUTOINCREMENT rowid in sequence, and the
`articles_ai` trigger appends the matching fts row, resolving the
document name (unchanged throughout the loop). -/
def insertArticles (document_id : Nat) (page_ids : List (Nat × Nat)) (s : Store)
    (units : List Article) : Store :=
  let document_name := docNameOf s document_id
  let rows := (enumFrom' s.next_article_rowid units).map
    (fun iu => articleRowOf document_id page_ids iu.1 iu.2)
  { s with
    articles := s.articles ++ rows,
    articles_fts := s.articles_fts ++ rows.map (ftsRowOfArticle document_name),
    next_article_rowid := s.next_article_rowid + units.length }

/-- `max([p.page_number for p in pages_content]) if pages_content else 0`
(line 305). -/
def maxPageNumber (pages_content : List PageContent) : Nat :=
  (pages_content.map (fun p => p.page_number)).foldl Nat.max 0

/-- `UPDATE documents SET pages_count = ? WHERE id = ?` (line 306). -/
def updatePagesCount (s : Store) (document_id pages_count : Nat) : Store :=
  { s with
    documents := s.documents.map (fun d =>
      if d.id == document_id then { d with pages_count := pages_count } else d) }

/-- `index_document_enhanced` (lines 261-310).  Returns the connection
state after the call together with the outcome.  On success everything
is committed (line 308); on an exception the function propagates it
with NO rollback, leaving the partial mutations pending on the
connection (visible to every later statement, and committed by the
next successful `commit`). -/
def index_document_enhanced (fs : FileSystem) (db : DBConn)
    (file_path document_name : String) (title : String) :
    DBConn × Except IndexError Nat :=
  match fsLookup fs file_path with
  | none => (db, Except.error IndexError.fileNotFound)
  | some fc =>
    let sd := insertOrReplaceDocument db.store document_name title file_path
    let document_id := sd.2
    let s2 := deleteArticlesByDoc sd.1 document_id
    let s3 := deletePagesByDoc s2 document_id
    match fc with
    | FileContent.invalidUtf8 =>
      ({ db with store := s3 }, Except.error IndexError.unicodeDecodeError)
    | FileContent.valid pages =>
      let pr := parse_markdown_document_enhanced document_name pages
      let lr := insertPagesLoop document_id s3 [] pr.1
      if lr.2.2 then
        let s5 := insertArticles document_id lr.2.1 lr.1 pr.2
        let s6 := updatePagesCount s5 document_id (maxPageNumber pr.1)
        ({ store := s6, committed := s6 }, Except.ok pr.2.length)
      else ({ db with store := lr.1 }, Except.error IndexError.integrityError)

/-! ## The query engine

`WHERE articles_fts MATCH ?` delegates to FTS5.  Content is tokenized
by the `unicode61` tokenizer (maximal runs of alphanumeric characters,
case-folded; punctuation and whitespace separate tokens), each column
separately.  The query string is parsed by the FTS5 query grammar: a
whitespace-separated sequence of plain bareword terms is an implicit
AND of those terms, while a query with no terms, or with query-syntax
punctuation such as `.` `(` `'`, raises `sqlite3.OperationalError`
("fts5: syntax error").  The model below accepts exactly the
plain-bareword fragment — the fragment the specification's §4.3
semantics describes — and reports every other query via the error
constructor; a theorem relies on that error outcome only at inputs
(the blank query, the query `.`) where the real engine does raise.
`ORDER BY articles_fts.rank` is modelled as a deterministic order
(table order); the membership-level claims below are insensitive to
the particular permutation. -/

/-- The errors a search can raise.  `emptyQuery` is the spec's §7
taxonomy entry — the code never raises it; `ftsSyntaxError` models the
`sqlite3.OperationalError` from FTS5 query parsing. -/
inductive SearchError where
  | emptyQuery
  | ftsSyntaxError
deriving DecidableEq, Repr

/-- Characters the `unicode61` tokenizer keeps inside a token: ASCII
alphanumerics, with every non-ASCII codepoint approximated as a token
character (correct for the Arabic letters in play; non-ASCII
punctuation is the declared gap, parallel to the ASCII scoping of
`isPySpace`/`lowerChar`). -/
def isFts5TokenChar (c : Char) : Bool :=
  c.isAlphanum || decide (128 ≤ c.toNat)

/-- Maximal runs of token characters (the `unicode61` split of one
column value); separator characters (punctuation, whitespace) are
dropped. -/
def tokSplit : List Char → List (List Char)
  | [] => []
  | c :: cs =>
    if !isFts5TokenChar c then tokSplit cs
    else
      match cs, tokSplit cs with
      | [], _ => [[c]]
      | c2 :: _, r =>
        if !isFts5TokenChar c2 then [c] :: r
        else
          match r with
          | w :: ws => (c :: w) :: ws
          | [] => [[c]]

/-- `unicode61` tokenization of one indexed column: token-character
runs, case-folded. -/
def fts5Tokens (s : String) : List String :=
  (tokSplit (s.data.map lowerChar)).map String.mk

/-- All tokens of an `articles_fts` row (every column is indexed,
including `article_id` and `page_number`, stored as decimal text). -/
def ftsTokens (f : ArticleFtsRow) : List String :=
  fts5Tokens (Nat.repr f.article_id) ++ fts5Tokens f.document_name ++
  fts5Tokens (Nat.repr f.page_number) ++ fts5Tokens f.chapter ++
  fts5Tokens f.sect ++ fts5Tokens f.article_number ++ fts5Tokens f.title ++
  fts5Tokens f.content

/-- `articles_fts MATCH terms`: every term occurs among the row's
tokens. -/
def matchRow (terms : List String) (f : ArticleFtsRow) : Bool :=
  terms.all (fun t => (ftsTokens f).elem t)

/-- The uppercase boolean operators of the FTS5 query grammar
(lowercase spellings are ordinary barewords). -/
def fts5Keywords : List String := ["AND", "OR", "NOT"]

/-- A plain bareword term of the modelled FTS5 query fragment: a
non-empty run of token characters that is not an uppercase operator
keyword.  Such a word tokenizes to exactly one query token.  Words
outside this fragment (punctuation such as `.` `(` `'`, quoted
phrases, prefix stars, column filters, operator keywords) engage the
full FTS5 query grammar, which the model does not reproduce. -/
def isFts5Bareword (w : String) : Bool :=
  !w.data.isEmpty && w.data.all isFts5TokenChar && !(fts5Keywords.elem w)

/-- FTS5 query parsing over the modelled fragment: a whitespace-split
sequence of plain barewords parses to its case-folded terms (implicit
AND); a query with no terms — on which FTS5 raises
`sqlite3.OperationalError` ("fts5: syntax error") — and every query
outside the bareword fragment are reported via the error constructor.
No theorem relies on the error outcome except at the blank query and
at `.`, where a real `MATCH` does raise. -/
def ftsQueryTerms (query : String) : Except SearchError (List String) :=
  let words := pySplitWs query
  if words.isEmpty then Except.error SearchError.ftsSyntaxError
  else if words.all isFts5Bareword then Except.ok (words.map lowerStr)
  else Except.error SearchError.ftsSyntaxError

/-- One row of the `search_enhanced` result set (lines 355-374). -/
structure SearchResult where
  id : Nat
  document_id : Nat
  page_id : Option Nat
  document_name : String
  document_title : String
  page_number : Nat
  chapter : String
  sect : String
  article_number : String
  title : String
  content : String
  article_type : String
  position_in_page : Nat
  highlighted_content : String
deriving DecidableEq, Repr

/-- The SELECT row for one (fts, articles, documents) join match, with
the highlighted copy added by the Python loop (lines 370-374; the raw
query is the highlight source). -/
def mkResult (a : ArticleRow) (d : DocumentRow) (query : String) : SearchResult :=
  { id := a.id, document_id := a.document_id, page_id := a.page_id,
    document_name := d.name, document_title := d.title,
    page_number := a.page_number, chapter := a.chapter, sect := a.sect,
    article_number := a.article_number, title := a.title, content := a.content,
    article_type := a.article_type, position_in_page := a.position_in_page,
    highlighted_content := EnhancedLegalSearchEngine._highlight_matches a.content query }

/-- `search_enhanced` (lines 352-376): no blank-query check; the raw
query goes to FTS5; matched fts rows are inner-joined to `articles`
(on `rowid = a.id`) and `documents` (on `a.document_id = d.id`), capped
at `limit`. -/
def EnhancedLegalSearchEngine.search_enhanced (db : DBConn) (query : String)
    (limit : Nat) : Except SearchError (List SearchResult) :=
  match ftsQueryTerms query with
  | Except.error e => Except.error e
  | Except.ok terms =>
    let rows := db.store.articles_fts.filter (matchRow terms)
    let joined := rows.filterMap (fun f =>
      match db.store.articles.find? (fun a => a.id == f.article_id) with
      | none => none
      | some a =>
        match db.store.documents.find? (fun d => d.id == a.document_id) with
        | none => none
        | some d => some (mkResult a d query))
    Except.ok (joined.take limit)

/-! ## The plain engine's search (`legal_search.py` lines 252-289) -/

/-- A row of the plain engine's `articles` table (no page linkage). -/
structure LegalArticleRow where
  id : Nat
  document_id : Nat
  page_number : Nat
  chapter : String
  sect : String
  article_number : String
  title : String
  content : String
  article_type : String
deriving DecidableEq, Repr

/-- A row of the plain engine's `articles_fts` (no page_number
column; schema lines 71-83). -/
structure LegalFtsRow where
  article_id : Nat
  document_name : String
  chapter : String
  sect : String
  article_number : String
  title : String
  content : String
deriving DecidableEq, Repr

/-- The tables of `legal_database.db` that `search` reads. -/
structure LegalStore where
  documents : List DocumentRow
  articles : List LegalArticleRow
  articles_fts : List LegalFtsRow
deriving DecidableEq, Repr

/-- A `LegalStore` with empty tables. -/
def emptyLegalStore : LegalStore := { documents := [], articles := [], articles_fts := [] }

/-- All tokens of a plain-engine fts row. -/
def legalFtsTokens (f : LegalFtsRow) : List String :=
  fts5Tokens (Nat.repr f.article_id) ++ fts5Tokens f.document_name ++
  fts5Tokens f.chapter ++ fts5Tokens f.sect ++ fts5Tokens f.article_number ++
  fts5Tokens f.title ++ fts5Tokens f.content

/-- Plain-engine `articles_fts MATCH terms`. -/
def matchRowL (terms : List String) (f : LegalFtsRow) : Bool :=
  terms.all (fun t => (legalFtsTokens f).elem t)

/-- One row of the plain engine's result set. -/
structure LegalResult where
  id : Nat
  document_id : Nat
  document_name : String
  document_title : String
  page_number : Nat
  chapter : String
  sect : String
  article_number : String
  title : String
  content : String
  article_type : String
  highlighted_content : String
deriving DecidableEq, Repr

/-- The plain engine's SELECT row plus highlighting (lines 282-287;
the highlight source is `clean_query`). -/
def mkLegalResult (a : LegalArticleRow) (d : DocumentRow) (clean_query : String) :
    LegalResult :=
  { id := a.id, document_id := a.document_id, document_name := d.name,
    document_title := d.title, page_number := a.page_number, chapter := a.chapter,
    sect := a.sect, article_number := a.article_number, title := a.title,
    content := a.content, article_type := a.article_type,
    highlighted_content := LegalSearchEngine._highlight_matches a.content clean_query }

/-- `LegalSearchEngine.search` (lines 252-289): strips the query,
RETURNS the empty list for a blank query (lines 255-257 — no error is
raised), and otherwise passes `clean_query` to FTS5 and joins as the
enhanced engine does. -/
def LegalSearchEngine.search (ls : LegalStore) (query : String) (limit : Nat) :
    Except SearchError (List LegalResult) :=
  let clean_query := pyStrip query
  if clean_query = "" then Except.ok []
  else
    match ftsQueryTerms clean_query with
    | Except.error e => Except.error e
    | Except.ok terms =>
      let rows := ls.articles_fts.filter (matchRowL terms)
      let joined := rows.filterMap (fun f =>
        match ls.articles.find? (fun a => a.id == f.article_id) with
        | none => none
        | some a =>
          match ls.documents.find? (fun d => d.id == a.document_id) with
          | none => none
          | some d => some (mkLegalResult a d clean_query))
      Except.ok (joined.take limit)

/-! ## Projections and well-formedness used by the claims -/

/-- The observable data of one legal unit (everything but the
synthetic rowids and the derived highlight). -/
structure UnitData where
  page_number : Nat
  chapter : String
  sect : String
  article_number : String
  title : String
  content : String
  article_type : String
  position_in_page : Nat
deriving DecidableEq, Repr

/-- The unit data of a parsed unit. -/
def stripUnit (u : Article) : UnitData :=
  { page_number := u.page_number, chapter := u.chapter, sect := u.sect,
    article_number := u.article_number, title := u.title, content := u.content,
    article_type := u.article_type, position_in_page := u.position_in_page }

/-- The unit data of a stored article row. -/
def stripRow (a : ArticleRow) : UnitData :=
  { page_number := a.page_number, chapter := a.chapter, sect := a.sect,
    article_number := a.article_number, title := a.title, content := a.content,
    article_type := a.article_type, position_in_page := a.position_in_page }

/-- The unit data of a search result. -/
def stripRes (r : SearchResult) : UnitData :=
  { page_number := r.page_number, chapter := r.chapter, sect := r.sect,
    article_number := r.article_number, title := r.title, content := r.content,
    article_type := r.article_type, position_in_page := r.position_in_page }

/-- The tokens of the text columns a unit contributes to its fts row
(everything except the synthetic `article_id` column). -/
def unitTextTokens (document_name : String) (x : UnitData) : List String :=
  fts5Tokens document_name ++ fts5Tokens (Nat.repr x.page_number) ++
  fts5Tokens x.chapter ++ fts5Tokens x.sect ++ fts5Tokens x.article_number ++
  fts5Tokens x.title ++ fts5Tokens x.content

/-- Does a unit's own text match every term of the query?  (Sufficient
for its fts row to match, whatever rowid it received.) -/
def matchesUnitData (terms : List String) (document_name : String) (x : UnitData) : Bool :=
  terms.all (fun t => (unitTextTokens document_name x).elem t)

/-- Well-formedness a live connection maintains: rowids are unique and
below the AUTOINCREMENT counters, and article rows reference document
rowids below the counter. -/
def WF (s : Store) : Prop :=
  (s.documents.map DocumentRow.id).Nodup ∧
  (∀ d ∈ s.documents, d.id < s.next_document_rowid) ∧
  (s.articles.map ArticleRow.id).Nodup ∧
  (∀ a ∈ s.articles, a.id < s.next_article_rowid) ∧
  (∀ a ∈ s.articles, a.document_id < s.next_document_rowid)

instance (s : Store) : Decidable (WF s) := by
  unfold WF
  infer_instance

deriving instance DecidableEq for Except

/-! ## Concrete fixtures for witnesses, counterexamples and the C2 bug -/

/-- A file system holding one readable document and one non-UTF-8
file. -/
def c2fs : FileSystem :=
  [("f1", FileContent.valid [(1, "news law aaaaa")]), ("f2", FileContent.invalidUtf8),
   ("f3", FileContent.valid [(1, "zzzz yyyy xxxx")])]

/-- The connection after successfully indexing `f1` as `docA`. -/
def c2db1 : DBConn := (index_document_enhanced c2fs emptyDB "f1" "docA" "").1

/-- The connection after the FAILED re-index of `docA` from the
non-UTF-8 file `f2`. -/
def c2db2 : DBConn := (index_document_enhanced c2fs c2db1 "f2" "docA" "").1

/-- The connection after a later successful index of a different
document `docB`, whose `commit` makes the step-2 mutations durable. -/
def c2db3 : DBConn := (index_document_enhanced c2fs c2db2 "f3" "docB" "").1

/-- A document whose page split yields two pages with the same page
number. -/
def c9fs : FileSystem := [("f", FileContent.valid [(1, "x"), (1, "y")])]

/-- Two versions of the same document under different paths. -/
def c1fs : FileSystem :=
  [("p1", FileContent.valid [(1, "first content unitxx")]),
   ("p2", FileContent.valid [(1, "second content unityy")])]

/-- The connection after indexing version 1 as `doc`. -/
def c1db1 : DBConn := (index_document_enhanced c1fs emptyDB "p1" "doc" "").1

/-- The connection after re-indexing `doc` from version 2. -/
def c1db2 : DBConn := (index_document_enhanced c1fs c1db1 "p2" "doc" "").1

/-- The one result the query "second" finds after the re-index. -/
def c1res : SearchResult :=
  { id := 2, document_id := 2, page_id := some 2, document_name := "doc",
    document_title := "", page_number := 1, chapter := "", sect := "",
    article_number := "", title := "", content := "second content unityy",
    article_type := "general", position_in_page := 0,
    highlighted_content := "<mark class=\"highlight\">second</mark> content unityy" }

/-! ## Claims C5, C7, C8: the line state machine -/

/-- C5: segmenting a document consisting of one page whose text is the
four lines `الباب الأول`, `الفصل الأول`, `المادة (1)`, `نص المادة الأول`
yields exactly one unit, of kind article, with article number "1",
chapter `الباب الأول`, section `الفصل الأول` and body `نص المادة الأول`. -/
theorem claim_C5_scenarioA :
    (parse_markdown_document_enhanced "doc"
      [(1, "الباب الأول\nالفصل الأول\nالمادة (1)\nنص المادة الأول")]).2 =
    [{ id := 1, document_name := "doc", page_number := 1,
       chapter := "الباب الأول", sect := "الفصل الأول",
       article_number := "1", title := "", content := "نص المادة الأول",
       article_type := "article", position_in_page := 2 }] := by
  decide

/-- C7: a stripped non-blank line scanned while no article is open that
is not a chapter, section, or article marker emits exactly one `general`
unit (body = the line, empty article number and title, position = the
line index) when its length exceeds 10, and leaves the state untouched
when its length is at most 10. -/
theorem claim_C7_general_line (document_name : String) (page_num line_idx : Nat)
    (raw : String) (st : St)
    (hart : st.in_article = false)
    (hnb : pyStrip raw ≠ "")
    (hch : startsKw chapterKw (pyStrip raw) = false)
    (hsec : startsKw sectionKw (pyStrip raw) = false)
    (hm : matchArticleMarker (pyStrip raw) = none) :
    (10 < pyLen (pyStrip raw) →
      processLine document_name page_num line_idx raw st =
        { st with
          article_id := st.article_id + 1,
          articles := st.articles ++
            [{ id := st.article_id + 1, document_name := document_name,
               page_number := page_num, chapter := st.current_chapter,
               sect := st.current_section, article_number := "", title := "",
               content := pyStrip raw, article_type := "general",
               position_in_page := line_idx }] })
    ∧ (pyLen (pyStrip raw) ≤ 10 →
      processLine document_name page_num line_idx raw st = st) := by
  constructor
  · intro hlen
    simp only [processLine, if_neg hnb, hch, hsec, hm, hart,
      Bool.false_eq_true, if_false, if_pos hlen]
  · intro hlen
    simp only [processLine, if_neg hnb, hch, hsec, hm, hart,
      Bool.false_eq_true, if_false, if_neg (not_lt.mpr hlen)]

/-- Witness for C7 at a concrete 11-character line and 10-character line. -/
theorem claim_C7_witness :
    (10 < pyLen (pyStrip "aaaaaaaaaaa") →
      processLine "d" 1 0 "aaaaaaaaaaa"
        (pageInitState { current_chapter := "", current_section := "",
                         article_id := 0, articles := [] }) =
        { pageInitState { current_chapter := "", current_section := "",
                          article_id := 0, articles := [] } with
          article_id := 1,
          articles :=
            [{ id := 1, document_name := "d",
               page_number := 1, chapter := "",
               sect := "", article_number := "", title := "",
               content := pyStrip "aaaaaaaaaaa", article_type := "general",
               position_in_page := 0 }] })
    ∧ (pyLen (pyStrip "aaaaaaaaaaa") ≤ 10 →
      processLine "d" 1 0 "aaaaaaaaaaa"
        (pageInitState { current_chapter := "", current_section := "",
                         article_id := 0, articles := [] }) =
        pageInitState { current_chapter := "", current_section := "",
                        article_id := 0, articles := [] }) := by
  have h := claim_C7_general_line "d" 1 0 "aaaaaaaaaaa"
    (pageInitState { current_chapter := "", current_section := "",
                     article_id := 0, articles := [] })
    (by decide) (by decide) (by decide) (by decide) (by decide)
  simpa using h

/-- C8 counterexample: two consecutive article markers followed by one
body line.  Article 1 is open (with an empty accumulated body) when the
second marker is scanned, yet no unit for article 1 is ever emitted:
the parse yields only the unit for article 2. -/
theorem claim_C8_counterexample :
    (parse_markdown_document_enhanced "d" [(1, "المادة (1)\nالمادة (2)\nx")]).2 =
    [{ id := 1, document_name := "d", page_number := 1, chapter := "", sect := "",
       article_number := "2", title := "", content := "x",
       article_type := "article", position_in_page := 1 }] := by
  decide

/-- C8 (amended): when an article-marker line is scanned, the open
article is closed out and emitted before the new article is opened
provided its accumulated body is non-empty; an open article whose body
is still empty is discarded without emission.  The new article opens
with the captured label, cleared title and body, and the line index as
its position. -/
theorem claim_C8_amended (document_name : String) (page_num line_idx : Nat)
    (raw : String) (st : St) (label : String)
    (hnb : pyStrip raw ≠ "")
    (hch : startsKw chapterKw (pyStrip raw) = false)
    (hsec : startsKw sectionKw (pyStrip raw) = false)
    (hm : matchArticleMarker (pyStrip raw) = some label) :
    (st.in_article = true → st.current_article_content ≠ [] →
      (processLine document_name page_num line_idx raw st).articles =
        st.articles ++
          [{ id := st.article_id + 1, document_name := document_name,
             page_number := page_num, chapter := st.current_chapter,
             sect := st.current_section,
             article_number := st.current_article_number,
             title := st.current_article_title,
             content := joinNL st.current_article_content,
             article_type := "article",
             position_in_page := st.position_in_page }])
    ∧ (st.in_article = false ∨ st.current_article_content = [] →
      (processLine document_name page_num line_idx raw st).articles = st.articles)
    ∧ (processLine document_name page_num line_idx raw st).current_article_number = label
    ∧ (processLine document_name page_num line_idx raw st).in_article = true
    ∧ (processLine document_name page_num line_idx raw st).current_article_content = []
    ∧ (processLine document_name page_num line_idx raw st).current_article_title = ""
    ∧ (processLine document_name page_num line_idx raw st).position_in_page = line_idx := by
  refine ⟨?_, ?_, ?_, ?_, ?_, ?_, ?_⟩ <;>
    simp only [processLine, if_neg hnb, hch, hsec, hm, Bool.false_eq_true, if_false,
      flushArticle]
  · intro hin hne
    simp [hin, hne]
  · rintro (hin | hemp)
    · simp [hin]
    · simp [hemp]

/-- Witness for C8 (amended): a marker line scanned while article "1"
is open with body line "b" already accumulated. -/
theorem claim_C8_witness :
    ({ current_chapter := "c", current_section := "s", article_id := 0,
       current_article_content := ["b"], current_article_number := "1",
       current_article_title := "", in_article := true, position_in_page := 0,
       articles := [] : St }.in_article = true →
      { current_chapter := "c", current_section := "s", article_id := 0,
        current_article_content := ["b"], current_article_number := "1",
        current_article_title := "", in_article := true, position_in_page := 0,
        articles := [] : St }.current_article_content ≠ [] →
      (processLine "d" 1 1 "المادة (2)"
        { current_chapter := "c", current_section := "s", article_id := 0,
          current_article_content := ["b"], current_article_number := "1",
          current_article_title := "", in_article := true, position_in_page := 0,
          articles := [] }).articles =
        [] ++
          [{ id := 1, document_name := "d", page_number := 1, chapter := "c",
             sect := "s", article_number := "1", title := "",
             content := joinNL ["b"], article_type := "article",
             position_in_page := 0 }])
    ∧ ({ current_chapter := "c", current_section := "s", article_id := 0,
         current_article_content := ["b"], current_article_number := "1",
         current_article_title := "", in_article := true, position_in_page := 0,
         articles := [] : St }.in_article = false ∨
       ({ current_chapter := "c", current_section := "s", article_id := 0,
          current_article_content := ["b"], current_article_number := "1",
          current_article_title := "", in_article := true, position_in_page := 0,
          articles := [] : St }).current_article_content = [] →
      (processLine "d" 1 1 "المادة (2)"
        { current_chapter := "c", current_section := "s", article_id := 0,
          current_article_content := ["b"], current_article_number := "1",
          current_article_title := "", in_article := true, position_in_page := 0,
          articles := [] }).articles =
        ([] : List Article))
    ∧ (processLine "d" 1 1 "المادة (2)"
        { current_chapter := "c", current_section := "s", article_id := 0,
          current_article_content := ["b"], current_article_number := "1",
          current_article_title := "", in_article := true, position_in_page := 0,
          articles := [] }).current_article_number = "2"
    ∧ (processLine "d" 1 1 "المادة (2)"
        { current_chapter := "c", current_section := "s", article_id := 0,
          current_article_content := ["b"], current_article_number := "1",
          current_article_title := "", in_article := true, position_in_page := 0,
          articles := [] }).in_article = true
    ∧ (processLine "d" 1 1 "المادة (2)"
        { current_chapter := "c", current_section := "s", article_id := 0,
          current_article_content := ["b"], current_article_number := "1",
          current_article_title := "", in_article := true, position_in_page := 0,
          articles := [] }).current_article_content = []
    ∧ (processLine "d" 1 1 "المادة (2)"
        { current_chapter := "c", current_section := "s", article_id := 0,
          current_article_content := ["b"], current_article_number := "1",
          current_article_title := "", in_article := true, position_in_page := 0,
          articles := [] }).current_article_title = ""
    ∧ (processLine "d" 1 1 "المادة (2)"
        { current_chapter := "c", current_section := "s", article_id := 0,
          current_article_content := ["b"], current_article_number := "1",
          current_article_title := "", in_article := true, position_in_page := 0,
          articles := [] }).position_in_page = 1 :=
  claim_C8_amended "d" 1 1 "المادة (2)"
    { current_chapter := "c", current_section := "s", article_id := 0,
      current_article_content := ["b"], current_article_number := "1",
      current_article_title := "", in_article := true, position_in_page := 0,
      articles := [] } "2"
    (by decide) (by decide) (by decide) (by decide)

/-! ## Claim C6: the carried chapter/section state -/

theorem not_section_of_chapter {l : List Char} (h1 : startsWithL chapterKw l = true)
    (h2 : startsWithL sectionKw l = true) : False := by
  match l with
  | [] => simp [startsWithL, chapterKw] at h1
  | [c1] => simp [startsWithL, chapterKw] at h1
  | [c1, c2] => simp [startsWithL, chapterKw] at h1
  | c1 :: c2 :: c3 :: rest =>
    simp only [startsWithL, chapterKw, sectionKw, Bool.and_eq_true, decide_eq_true_eq] at h1 h2
    have hb : c3 = 'ب' := h1.2.2.1.symm
    have hf : c3 = 'ف' := h2.2.2.1.symm
    rw [hb] at hf
    exact absurd hf (by decide)

theorem flushArticle_current_chapter (dn : String) (pn : Nat) (st : St) :
    (flushArticle dn pn st).current_chapter = st.current_chapter := by
  unfold flushArticle; split <;> rfl

theorem flushArticle_current_section (dn : String) (pn : Nat) (st : St) :
    (flushArticle dn pn st).current_section = st.current_section := by
  unfold flushArticle; split <;> rfl

theorem processLine_current_chapter (dn : String) (pn i : Nat) (raw : String) (st : St) :
    (processLine dn pn i raw st).current_chapter =
      if chapterLine raw then pyStrip raw else st.current_chapter := by
  by_cases h0 : pyStrip raw = ""
  · simp [processLine, chapterLine, h0]
  · by_cases h1 : startsKw chapterKw (pyStrip raw)
    · simp [processLine, chapterLine, h0, h1]
    · by_cases h2 : startsKw sectionKw (pyStrip raw)
      · simp [processLine, chapterLine, h0, h1, h2]
      · cases hm : matchArticleMarker (pyStrip raw) with
        | some label =>
          simp [processLine, chapterLine, h0, h1, h2, hm, flushArticle_current_chapter]
        | none =>
          by_cases h3 : st.in_article
          · simp [processLine, chapterLine, h0, h1, h2, hm, h3]
          · by_cases h4 : 10 < pyLen (pyStrip raw)
            · simp [processLine, chapterLine, h0, h1, h2, hm, h3, h4]
            · simp [processLine, chapterLine, h0, h1, h2, hm, h3, h4]

theorem processLine_current_section (dn : String) (pn i : Nat) (raw : String) (st : St) :
    (processLine dn pn i raw st).current_section =
      if sectionLine raw then pyStrip raw else st.current_section := by
  by_cases h0 : pyStrip raw = ""
  · simp [processLine, sectionLine, h0]
  · by_cases h1 : startsKw chapterKw (pyStrip raw)
    · have h2 : ¬ startsKw sectionKw (pyStrip raw) = true := fun h =>
        not_section_of_chapter h1 h
      simp [processLine, sectionLine, h0, h1, h2]
    · by_cases h2 : startsKw sectionKw (pyStrip raw)
      · simp [processLine, sectionLine, h0, h1, h2]
      · cases hm : matchArticleMarker (pyStrip raw) with
        | some label =>
          simp [processLine, sectionLine, h0, h1, h2, hm, flushArticle_current_section]
        | none =>
          by_cases h3 : st.in_article
          · simp [processLine, sectionLine, h0, h1, h2, hm, h3]
          · by_cases h4 : 10 < pyLen (pyStrip raw)
            · simp [processLine, sectionLine, h0, h1, h2, hm, h3, h4]
            · simp [processLine, sectionLine, h0, h1, h2, hm, h3, h4]

theorem scanLines_current_chapter (dn : String) (pn : Nat) :
    ∀ (ls : List String) (i : Nat) (st : St),
      (scanLines dn pn i ls st).current_chapter =
        lastMarker chapterLine st.current_chapter ls := by
  intro ls
  induction ls with
  | nil => intro i st; rfl
  | cons l rest ih =>
    intro i st
    show (scanLines dn pn (i + 1) rest (processLine dn pn i l st)).current_chapter = _
    rw [ih, processLine_current_chapter]
    rfl

theorem scanLines_current_section (dn : String) (pn : Nat) :
    ∀ (ls : List String) (i : Nat) (st : St),
      (scanLines dn pn i ls st).current_section =
        lastMarker sectionLine st.current_section ls := by
  intro ls
  induction ls with
  | nil => intro i st; rfl
  | cons l rest ih =>
    intro i st
    show (scanLines dn pn (i + 1) rest (processLine dn pn i l st)).current_section = _
    rw [ih, processLine_current_section]
    rfl

theorem processPage_current_chapter (dn : String) (d : DocSt) (p : Nat × String) :
    (processPage dn d p).current_chapter =
      lastMarker chapterLine d.current_chapter (splitNL (pyStrip p.2)) := by
  show (flushArticle dn p.1 (scanLines dn p.1 0 (splitNL (pyStrip p.2)) (pageInitState d))).current_chapter = _
  rw [flushArticle_current_chapter, scanLines_current_chapter]
  rfl

theorem processPage_current_section (dn : String) (d : DocSt) (p : Nat × String) :
    (processPage dn d p).current_section =
      lastMarker sectionLine d.current_section (splitNL (pyStrip p.2)) := by
  show (flushArticle dn p.1 (scanLines dn p.1 0 (splitNL (pyStrip p.2)) (pageInitState d))).current_section = _
  rw [flushArticle_current_section, scanLines_current_section]
  rfl

theorem lastMarker_append (isM : String → Bool) (init : String) (l1 l2 : List String) :
    lastMarker isM init (l1 ++ l2) = lastMarker isM (lastMarker isM init l1) l2 :=
  List.foldl_append _ _ _ _

theorem allLines_cons (p : Nat × String) (rest : List (Nat × String)) :
    allLines (p :: rest) = splitNL (pyStrip p.2) ++ allLines rest := by
  simp [allLines]

theorem foldl_processPage_current_chapter (dn : String) :
    ∀ (pages : List (Nat × String)) (d : DocSt),
      (pages.foldl (processPage dn) d).current_chapter =
        lastMarker chapterLine d.current_chapter (allLines pages) := by
  intro pages
  induction pages with
  | nil => intro d; rfl
  | cons p rest ih =>
    intro d
    show (rest.foldl (processPage dn) (processPage dn d p)).current_chapter = _
    rw [ih, processPage_current_chapter, allLines_cons, lastMarker_append]

theorem foldl_processPage_current_section (dn : String) :
    ∀ (pages : List (Nat × String)) (d : DocSt),
      (pages.foldl (processPage dn) d).current_section =
        lastMarker sectionLine d.current_section (allLines pages) := by
  intro pages
  induction pages with
  | nil => intro d; rfl
  | cons p rest ih =>
    intro d
    show (rest.foldl (processPage dn) (processPage dn d p)).current_section = _
    rw [ih, processPage_current_section, allLines_cons, lastMarker_append]

theorem flushArticle_mem_articles (dn : String) (pn : Nat) (st : St) (u : Article)
    (hu : u ∈ (flushArticle dn pn st).articles) :
    u ∈ st.articles ∨ (u.chapter = st.current_chapter ∧ u.sect = st.current_section) := by
  unfold flushArticle at hu
  split at hu
  · simp only [List.mem_append, List.mem_singleton] at hu
    rcases hu with h | h
    · exact Or.inl h
    · subst h; exact Or.inr ⟨rfl, rfl⟩
  · exact Or.inl hu

theorem processLine_mem_articles (dn : String) (pn i : Nat) (raw : String) (st : St)
    (u : Article) (hu : u ∈ (processLine dn pn i raw st).articles) :
    u ∈ st.articles ∨ (u.chapter = st.current_chapter ∧ u.sect = st.current_section) := by
  by_cases h0 : pyStrip raw = ""
  · simp only [processLine, h0, if_true, if_pos rfl] at hu
    exact Or.inl (by simpa [h0] using hu)
  · by_cases h1 : startsKw chapterKw (pyStrip raw)
    · simp only [processLine, if_neg h0, h1, if_true] at hu
      exact Or.inl hu
    · by_cases h2 : startsKw sectionKw (pyStrip raw)
      · simp only [processLine, if_neg h0, h1, h2, Bool.false_eq_true, if_false,
          if_true] at hu
        exact Or.inl hu
      · cases hm : matchArticleMarker (pyStrip raw) with
        | some label =>
          simp only [processLine, if_neg h0, h1, h2, Bool.false_eq_true, if_false,
            hm] at hu
          exact flushArticle_mem_articles dn pn st u hu
        | none =>
          by_cases h3 : st.in_article
          · simp only [processLine, if_neg h0, h1, h2, Bool.false_eq_true, if_false,
              hm, h3, if_true] at hu
            exact Or.inl hu
          · by_cases h4 : 10 < pyLen (pyStrip raw)
            · simp only [processLine, if_neg h0, h1, h2, Bool.false_eq_true, if_false,
                hm, h3, if_pos h4, List.mem_append, List.mem_singleton] at hu
              rcases hu with h | h
              · exact Or.inl h
              · subst h; exact Or.inr ⟨rfl, rfl⟩
            · simp only [processLine, if_neg h0, h1, h2, Bool.false_eq_true, if_false,
                hm, h3, if_neg h4] at hu
              exact Or.inl hu

/-- C6: throughout segmentation, (1)/(2) each scanned line updates
`current_chapter` / `current_section` to its own stripped text exactly
when it is a chapter / section marker, and otherwise leaves it
untouched; (3) consequently, over a whole document the carried state
after any page prefix equals the most recent marker line seen anywhere
so far (starting from the document-start reset value, carried across
page boundaries, each new marker overwriting the previous one); and
(4)/(5) every unit emitted by the line scan or by the end-of-page flush
records the carried chapter/section values current at its emission. -/
theorem claim_C6_carried_state :
    (∀ (dn : String) (pn i : Nat) (raw : String) (st : St),
      (processLine dn pn i raw st).current_chapter =
        if chapterLine raw then pyStrip raw else st.current_chapter)
    ∧ (∀ (dn : String) (pn i : Nat) (raw : String) (st : St),
      (processLine dn pn i raw st).current_section =
        if sectionLine raw then pyStrip raw else st.current_section)
    ∧ (∀ (dn : String) (pages : List (Nat × String)) (d : DocSt),
      (pages.foldl (processPage dn) d).current_chapter =
        lastMarker chapterLine d.current_chapter (allLines pages)
      ∧ (pages.foldl (processPage dn) d).current_section =
        lastMarker sectionLine d.current_section (allLines pages))
    ∧ (∀ (dn : String) (pn i : Nat) (raw : String) (st : St) (u : Article),
      u ∈ (processLine dn pn i raw st).articles →
        u ∈ st.articles ∨ (u.chapter = st.current_chapter ∧ u.sect = st.current_section))
    ∧ (∀ (dn : String) (pn : Nat) (st : St) (u : Article),
      u ∈ (flushArticle dn pn st).articles →
        u ∈ st.articles ∨ (u.chapter = st.current_chapter ∧ u.sect = st.current_section)) :=
  ⟨processLine_current_chapter, processLine_current_section,
   fun dn pages d =>
     ⟨foldl_processPage_current_chapter dn pages d,
      foldl_processPage_current_section dn pages d⟩,
   processLine_mem_articles, flushArticle_mem_articles⟩

/-- Witness for C6: a concrete emission (a general unit emitted from a
long line) records the carried chapter and section of the scan state. -/
theorem claim_C6_witness :
    { id := 1, document_name := "d", page_number := 1, chapter := "c", sect := "s",
      article_number := "", title := "", content := "aaaaaaaaaaa",
      article_type := "general", position_in_page := 0 : Article } ∈
      ([] : List Article) ∨ (("c" : String) = "c" ∧ ("s" : String) = "s") :=
  claim_C6_carried_state.2.2.2.1 "d" 1 0 "aaaaaaaaaaa"
    { current_chapter := "c", current_section := "s", article_id := 0,
      current_article_content := [], current_article_number := "",
      current_article_title := "", in_article := false, position_in_page := 0,
      articles := [] }
    { id := 1, document_name := "d", page_number := 1, chapter := "c", sect := "s",
      article_number := "", title := "", content := "aaaaaaaaaaa",
      article_type := "general", position_in_page := 0 }
    (by decide)

/-! ## Claim C10: the highlighter -/

theorem ciSplitFuel_ne_nil (w : List Char) :
    ∀ (fuel : Nat) (s : List Char), ciSplitFuel w fuel s ≠ [] := by
  intro fuel
  induction fuel with
  | zero => intro s; cases s <;> simp [ciSplitFuel]
  | succ fuel ih =>
    intro s
    cases s with
    | nil => simp [ciSplitFuel]
    | cons c cs =>
      unfold ciSplitFuel
      split
      · simp
      · cases h : ciSplitFuel w fuel cs with
        | nil => simp
        | cons p t => simp

theorem reSubFuel_cons_pos (w r : List Char) (fuel : Nat) (c : Char) (cs : List Char)
    (h : (!w.isEmpty && ciStarts w (c :: cs)) = true) :
    reSubFuel w r (fuel + 1) (c :: cs) =
      r ++ reSubFuel w r fuel ((c :: cs).drop w.length) := by
  simp only [reSubFuel]
  rw [if_pos h]

theorem reSubFuel_cons_neg (w r : List Char) (fuel : Nat) (c : Char) (cs : List Char)
    (h : ¬ (!w.isEmpty && ciStarts w (c :: cs)) = true) :
    reSubFuel w r (fuel + 1) (c :: cs) = c :: reSubFuel w r fuel cs := by
  simp only [reSubFuel]
  rw [if_neg h]

theorem ciSplitFuel_cons_pos (w : List Char) (fuel : Nat) (c : Char) (cs : List Char)
    (h : (!w.isEmpty && ciStarts w (c :: cs)) = true) :
    ciSplitFuel w (fuel + 1) (c :: cs) =
      [] :: ciSplitFuel w fuel ((c :: cs).drop w.length) := by
  simp only [ciSplitFuel]
  rw [if_pos h]

theorem ciSplitFuel_cons_neg (w : List Char) (fuel : Nat) (c : Char) (cs : List Char)
    (h : ¬ (!w.isEmpty && ciStarts w (c :: cs)) = true) :
    ciSplitFuel w (fuel + 1) (c :: cs) =
      match ciSplitFuel w fuel cs with
      | p :: t => (c :: p) :: t
      | [] => [[c]] := by
  simp only [ciSplitFuel]
  rw [if_neg h]

theorem reSubFuel_eq_join (w r : List Char) (hw : w ≠ []) :
    ∀ (f1 : Nat), ∀ (s : List Char) (f2 : Nat), s.length ≤ f1 → s.length ≤ f2 →
      reSubFuel w r f1 s = joinInterL r (ciSplitFuel w f2 s) := by
  intro f1
  induction f1 with
  | zero =>
    intro s f2 h1 _
    have hs : s = [] := List.eq_nil_of_length_eq_zero (Nat.le_zero.mp h1)
    subst hs
    cases f2 <;> rfl
  | succ f1 ih =>
    intro s f2 h1 h2
    cases s with
    | nil => cases f2 <;> rfl
    | cons c cs =>
      cases f2 with
      | zero => exact absurd h2 (by simp)
      | succ f2 =>
        by_cases hc : (!w.isEmpty && ciStarts w (c :: cs)) = true
        · have hlen : ((c :: cs).drop w.length).length ≤ f1 := by
            have hwpos : 0 < w.length := List.length_pos.mpr hw
            simp only [List.length_drop, List.length_cons]
            simp only [List.length_cons] at h1
            omega
          have hlen2 : ((c :: cs).drop w.length).length ≤ f2 := by
            have hwpos : 0 < w.length := List.length_pos.mpr hw
            simp only [List.length_drop, List.length_cons]
            simp only [List.length_cons] at h2
            omega
          rw [reSubFuel_cons_pos w r f1 c cs hc, ciSplitFuel_cons_pos w f2 c cs hc,
            ih _ f2 hlen hlen2]
          cases hp : ciSplitFuel w f2 ((c :: cs).drop w.length) with
          | nil => exact absurd hp (ciSplitFuel_ne_nil w f2 _)
          | cons p t => simp [joinInterL]
        · have hlen : cs.length ≤ f1 := by simp only [List.length_cons] at h1; omega
          have hlen2 : cs.length ≤ f2 := by simp only [List.length_cons] at h2; omega
          rw [reSubFuel_cons_neg w r f1 c cs hc, ciSplitFuel_cons_neg w f2 c cs hc,
            ih _ f2 hlen hlen2]
          cases hp : ciSplitFuel w f2 cs with
          | nil => exact absurd hp (ciSplitFuel_ne_nil w f2 _)
          | cons p t =>
            cases t with
            | nil => simp [joinInterL]
            | cons q t2 => simp [joinInterL]

theorem highlight_foldl_short_id :
    ∀ (ws : List String), (∀ w ∈ ws, pyLen w ≤ 2) → ∀ (text : String),
      ws.foldl
        (fun highlighted_text word =>
          if 2 < pyLen word then
            pyReSub word ("**" ++ word ++ "**") highlighted_text
          else highlighted_text)
        text = text := by
  intro ws
  induction ws with
  | nil => intro _ text; rfl
  | cons w rest ih =>
    intro hshort text
    have h1 : ¬ 2 < pyLen w := not_lt.mpr (hshort w (by simp))
    show rest.foldl _ (if 2 < pyLen w then _ else text) = text
    rw [if_neg h1]
    exact ih (fun v hv => hshort v (by simp [hv])) text

theorem joinWith_map_mk (sep : String) :
    ∀ (ps : List (List Char)), joinWith sep (ps.map String.mk) = ⟨joinInterL sep.data ps⟩ := by
  intro ps
  induction ps with
  | nil => rfl
  | cons p t ih =>
    cases t with
    | nil => rfl
    | cons q t2 =>
      show String.mk p ++ sep ++ joinWith sep ((q :: t2).map String.mk) = _
      rw [ih]
      cases sep
      rfl

theorem pyReSub_eq_joinWith (w repl t : String) (hw : w ≠ "") :
    pyReSub w repl t = joinWith repl (ciSplit w t) := by
  have hwd : w.data ≠ [] := by
    intro h
    exact hw (by cases w with | mk d => cases h; rfl)
  rw [pyReSub, ciSplit, joinWith_map_mk,
    reSubFuel_eq_join w.data repl.data hwd t.data.length t.data t.data.length
      le_rfl le_rfl]

/-- C10 counterexample: highlighting "ABC" with query "abc" yields
`**abc**` — the marker wraps the QUERY word's own spelling, not the
matched occurrence's original text (`**ABC**`), refuting the claim's
"preserving the matched occurrence's original text inside the marker". -/
theorem claim_C10_counterexample :
    LegalSearchEngine._highlight_matches "ABC" "abc" = "**abc**" ∧
    LegalSearchEngine._highlight_matches "ABC" "abc" ≠ "**ABC**" := by
  constructor
  · decide
  · decide

/-- C10 (amended): both highlighters split the query into
whitespace-separated words; words of length at most 2 leave the target
unchanged; and — provided the query words contain no backslash, so that
`re.sub`'s replacement-template parsing of `f'..{word}..'` yields the
literal marker — each word of length greater than 2 replaces every
leftmost non-overlapping case-insensitive occurrence of the word in the
target by the visual marker wrapping the QUERY word's text (the matched
occurrence's original spelling is replaced, not preserved), applied
sequentially word by word. -/
theorem claim_C10_amended (text query : String) :
    ((∀ w ∈ pySplitWs query, ('\\' : Char) ∉ w.data) →
      LegalSearchEngine._highlight_matches text query =
        (pySplitWs query).foldl
          (fun acc w =>
            if 2 < pyLen w then joinWith ("**" ++ w ++ "**") (ciSplit w acc) else acc)
          text)
    ∧ ((∀ w ∈ pySplitWs query, ('\\' : Char) ∉ w.data) →
      EnhancedLegalSearchEngine._highlight_matches text query =
        (pySplitWs query).foldl
          (fun acc w =>
            if 2 < pyLen w then
              joinWith ("<mark class=\"highlight\">" ++ w ++ "</mark>") (ciSplit w acc)
            else acc)
          text)
    ∧ ((∀ w ∈ pySplitWs query, pyLen w ≤ 2) →
      LegalSearchEngine._highlight_matches text query = text) := by
  have hne : ∀ w : String, 2 < pyLen w → w ≠ "" := by
    intro w hlen h
    subst h
    simp [pyLen] at hlen
  refine ⟨?_, ?_, ?_⟩
  · intro _
    rw [LegalSearchEngine._highlight_matches]
    congr 1
    funext acc w
    by_cases h : 2 < pyLen w
    · rw [if_pos h, if_pos h, pyReSub_eq_joinWith _ _ _ (hne w h)]
    · rw [if_neg h, if_neg h]
  · intro _
    rw [EnhancedLegalSearchEngine._highlight_matches]
    congr 1
    funext acc w
    by_cases h : 2 < pyLen w
    · rw [if_pos h, if_pos h, pyReSub_eq_joinWith _ _ _ (hne w h)]
    · rw [if_neg h, if_neg h]
  · intro hshort
    rw [LegalSearchEngine._highlight_matches]
    exact highlight_foldl_short_id (pySplitWs query) hshort text

/-- Witness for C10 (amended): the backslash-free query "news" marks
the occurrence with its own spelling, and a query of words of length at
most 2 leaves the target unchanged. -/
theorem claim_C10_witness :
    LegalSearchEngine._highlight_matches "News today" "news" = "**news** today" ∧
    LegalSearchEngine._highlight_matches "xyz uvw" "ab c" = "xyz uvw" := by
  refine ⟨?_, (claim_C10_amended "xyz uvw" "ab c").2.2 (by decide)⟩
  have h := (claim_C10_amended "News today" "news").1 (by decide)
  rw [h]
  decide

/-! ## Whitespace lemmas relating `strip` and `split` -/

theorem mem_dropWhile_of_neg (p : Char → Bool) (c : Char) (hc : p c = false) :
    ∀ l : List Char, c ∈ l → c ∈ l.dropWhile p := by
  intro l
  induction l with
  | nil => intro h; cases h
  | cons a as ih =>
    intro h
    rw [List.dropWhile_cons]
    by_cases ha : p a = true
    · rcases List.mem_cons.mp h with rfl | h2
      · rw [hc] at ha; cases ha
      · rw [if_pos ha]; exact ih h2
    · rw [if_neg ha]; exact h

theorem strip_ne_of_nonspace {q : String} {c : Char} (hc : c ∈ q.data)
    (hs : isPySpace c = false) : pyStrip q ≠ "" := by
  have h1 : c ∈ q.data.dropWhile isPySpace := mem_dropWhile_of_neg _ _ hs _ hc
  have h2 : c ∈ (q.data.dropWhile isPySpace).reverse := List.mem_reverse.mpr h1
  have h3 : c ∈ (q.data.dropWhile isPySpace).reverse.dropWhile isPySpace :=
    mem_dropWhile_of_neg _ _ hs _ h2
  have h4 : c ∈ ((q.data.dropWhile isPySpace).reverse.dropWhile isPySpace).reverse :=
    List.mem_reverse.mpr h3
  intro h
  have hd : ((q.data.dropWhile isPySpace).reverse.dropWhile isPySpace).reverse = [] :=
    congrArg String.data h
  rw [hd] at h4
  cases h4

theorem all_space_of_strip_empty {q : String} (h : pyStrip q = "") :
    ∀ c ∈ q.data, isPySpace c = true := by
  intro c hc
  by_contra hcs
  exact strip_ne_of_nonspace hc (Bool.not_eq_true _ ▸ eq_false_of_ne_true hcs) h

theorem wsplit_eq_nil_of_all_space :
    ∀ l : List Char, (∀ c ∈ l, isPySpace c = true) → wsplit l = [] := by
  intro l
  induction l with
  | nil => intro _; rfl
  | cons a as ih =>
    intro h
    unfold wsplit
    rw [if_pos (h a (List.mem_cons_self a as))]
    exact ih (fun c hc => h c (List.mem_cons_of_mem a hc))

theorem pySplitWs_eq_nil_of_strip_empty {q : String} (h : pyStrip q = "") :
    pySplitWs q = [] := by
  have hall := all_space_of_strip_empty h
  have hn : wsplit q.data = [] := wsplit_eq_nil_of_all_space _ hall
  show (wsplit q.data).map String.mk = []
  rw [hn]
  rfl

/-! ## Claim C3: blank queries -/

/-- C3 counterexample: for the all-whitespace query, the plain engine's
`search` RETURNS the empty list — a normal result value, not the
`EmptyQuery` error — and `search_enhanced` raises the FTS layer's
syntax error, not `EmptyQuery` either. -/
theorem claim_C3_counterexample :
    LegalSearchEngine.search emptyLegalStore "   " 10 = Except.ok [] ∧
    LegalSearchEngine.search emptyLegalStore "   " 10 ≠
      Except.error SearchError.emptyQuery ∧
    EnhancedLegalSearchEngine.search_enhanced emptyDB "   " 10 =
      Except.error SearchError.ftsSyntaxError := by
  refine ⟨by decide, by decide, by decide⟩

/-- C3 (amended): for every query that is empty or all-whitespace, the
plain engine's `search` returns the empty list as a normal result (it
never signals `EmptyQuery`), while `search_enhanced`, which performs no
blank check, forwards the query to the FTS layer, which rejects it with
an engine-level syntax error (again not `EmptyQuery`). -/
theorem claim_C3_amended (ls : LegalStore) (db : DBConn) (query : String) (limit : Nat)
    (hq : pyStrip query = "") :
    LegalSearchEngine.search ls query limit = Except.ok [] ∧
    EnhancedLegalSearchEngine.search_enhanced db query limit =
      Except.error SearchError.ftsSyntaxError := by
  constructor
  · rw [LegalSearchEngine.search]
    simp [hq]
  · rw [EnhancedLegalSearchEngine.search_enhanced, ftsQueryTerms]
    have ht : pySplitWs query = [] := pySplitWs_eq_nil_of_strip_empty hq
    simp [ht]

/-- Witness for C3 (amended) at the whitespace query `"  "`. -/
theorem claim_C3_witness :
    LegalSearchEngine.search emptyLegalStore "  " 10 = Except.ok [] ∧
    EnhancedLegalSearchEngine.search_enhanced emptyDB "  " 10 =
      Except.error SearchError.ftsSyntaxError :=
  claim_C3_amended emptyLegalStore emptyDB "  " 10 (by decide)

/-! ## Claim C4: queries that match nothing -/

/-- C4 counterexample: the non-blank query `"."` matches no indexed
record, yet neither engine returns the empty sequence: the query is
rejected by the FTS5 MATCH grammar, so both `search_enhanced` and
`search` raise the engine-level syntax error instead of returning a
normal value — refuting "never raises". -/
theorem claim_C4_counterexample :
    pyStrip "." ≠ "" ∧
    EnhancedLegalSearchEngine.search_enhanced emptyDB "." 10 =
      Except.error SearchError.ftsSyntaxError ∧
    LegalSearchEngine.search emptyLegalStore "." 10 =
      Except.error SearchError.ftsSyntaxError := by
  refine ⟨by decide, by decide, by decide⟩

/-- C4 (amended): within FTS5's accepted query grammar — here the
bareword fragment: at least one whitespace-separated word, each made
only of FTS5 token characters and none an uppercase query keyword — a
query none of whose (case-folded) terms occurs in any indexed fts
record returns the empty list as a normal value in both engines; it is
only a query tripping the MATCH grammar (such as `"."`) that raises. -/
theorem claim_C4_amended (db : DBConn) (ls : LegalStore)
    (query queryL : String) (limit : Nat) (terms termsL : List String)
    (hqE : ftsQueryTerms query = Except.ok terms)
    (hE : ∀ f ∈ db.store.articles_fts, matchRow terms f = false)
    (hqL : ftsQueryTerms (pyStrip queryL) = Except.ok termsL)
    (hL : ∀ f ∈ ls.articles_fts, matchRowL termsL f = false) :
    EnhancedLegalSearchEngine.search_enhanced db query limit = Except.ok [] ∧
    LegalSearchEngine.search ls queryL limit = Except.ok [] := by
  constructor
  · rw [EnhancedLegalSearchEngine.search_enhanced]
    have hrows : db.store.articles_fts.filter (matchRow terms) = [] :=
      List.filter_eq_nil_iff.mpr (fun f hf => by rw [hE f hf]; exact Bool.false_ne_true)
    simp [hqE, hrows]
  · have hstrip : ¬ pyStrip queryL = "" := by
      intro h0
      rw [h0] at hqL
      rw [show ftsQueryTerms "" = Except.error SearchError.ftsSyntaxError from rfl] at hqL
      exact Except.noConfusion hqL
    rw [LegalSearchEngine.search]
    rw [if_neg hstrip]
    have hrows : ls.articles_fts.filter (matchRowL termsL) = [] :=
      List.filter_eq_nil_iff.mpr (fun f hf => by rw [hL f hf]; exact Bool.false_ne_true)
    simp [hqL, hrows]

/-- Witness for C4 (amended): the bareword query "zzz" over empty
indexes returns the empty list in both engines. -/
theorem claim_C4_witness :
    EnhancedLegalSearchEngine.search_enhanced emptyDB "zzz" 10 = Except.ok [] ∧
    LegalSearchEngine.search emptyLegalStore "zzz" 10 = Except.ok [] :=
  claim_C4_amended emptyDB emptyLegalStore "zzz" "zzz" 10 ["zzz"] ["zzz"]
    (by decide) (by intro f hf; cases hf) (by decide) (by intro f hf; cases hf)

/-! ## Claim C2: a failed re-index destroys the prior index (code bug) -/

/-- C2: the code contradicts the spec's atomicity requirement.  With
document `docA` successfully indexed from `f1` (its unit is found by
the query "news"), a re-index of `docA` from the non-UTF-8 file `f2`
raises `UnicodeDecodeError` AFTER `INSERT OR REPLACE` has already
replaced the `documents` row under a fresh rowid (and the two DELETEs,
keyed by that fresh rowid, removed nothing).  There is no rollback: the
same connection now finds nothing for "news" (the old article rows are
orphaned — their `document_id` no longer joins to any `documents` row),
and the next successful `commit` (indexing an unrelated `docB`) makes
the destroyed state durable. -/
theorem claim_C2_code_bug :
    EnhancedLegalSearchEngine.search_enhanced c2db1 "news" 10 =
      Except.ok
        [{ id := 1, document_id := 1, page_id := some 1,
           document_name := "docA", document_title := "", page_number := 1,
           chapter := "", sect := "", article_number := "", title := "",
           content := "news law aaaaa", article_type := "general",
           position_in_page := 0,
           highlighted_content := "<mark class=\"highlight\">news</mark> law aaaaa" }]
    ∧ (index_document_enhanced c2fs c2db1 "f2" "docA" "").2 =
        Except.error IndexError.unicodeDecodeError
    ∧ EnhancedLegalSearchEngine.search_enhanced c2db2 "news" 10 = Except.ok []
    ∧ c2db2.store.documents =
        [{ id := 2, name := "docA", title := "", file_path := "f2", pages_count := 0 }]
    ∧ c2db2.store.articles = c2db1.store.articles
    ∧ (index_document_enhanced c2fs c2db2 "f3" "docB" "").2 = Except.ok 1
    ∧ c2db3.committed = c2db3.store
    ∧ EnhancedLegalSearchEngine.search_enhanced c2db3 "news" 10 = Except.ok [] := by
  refine ⟨by decide, by decide, by decide, by decide, by decide, by decide, by decide,
    by decide⟩

/-! ## Claim C9: duplicate page numbers -/

theorem insertPage_none_iff (s : Store) (document_id page_number : Nat) (content : String) :
    insertPage s document_id page_number content = none ↔
      (s.pages.any fun p => p.document_id == document_id && p.page_number == page_number) =
        true := by
  unfold insertPage
  split
  · rename_i h
    simp [h]
  · rename_i h
    simp [h]

theorem insertPage_some_spec (s : Store) (document_id page_number : Nat) (content : String)
    (s1 : Store) (pid : Nat)
    (h : insertPage s document_id page_number content = some (s1, pid)) :
    s1.documents = s.documents ∧ s1.articles = s.articles ∧
    s1.articles_fts = s.articles_fts ∧
    s1.next_document_rowid = s.next_document_rowid ∧
    s1.next_article_rowid = s.next_article_rowid ∧
    s1.pages = s.pages ++
      [{ id := s.next_page_rowid, document_id := document_id,
         page_number := page_number, content := content }] ∧
    (¬ (s.pages.any fun p =>
        p.document_id == document_id && p.page_number == page_number) = true) := by
  unfold insertPage at h
  split at h
  · cases h
  · rename_i hne
    injection h with h1
    injection h1 with hs _
    subst hs
    exact ⟨rfl, rfl, rfl, rfl, rfl, rfl, hne⟩

theorem insertPagesLoop_ok_iff (document_id : Nat) :
    ∀ (ps : List PageContent) (s : Store) (m : List (Nat × Nat)),
      (insertPagesLoop document_id s m ps).2.2 = true ↔
        ((ps.map PageContent.page_number).Nodup ∧
         ∀ p ∈ s.pages, p.document_id = document_id →
           p.page_number ∉ ps.map PageContent.page_number) := by
  intro ps
  induction ps with
  | nil =>
    intro s m
    simp [insertPagesLoop]
  | cons p rest ih =>
    intro s m
    unfold insertPagesLoop
    cases hI : insertPage s document_id p.page_number p.content with
    | none =>
      rw [insertPage_none_iff] at hI
      obtain ⟨q, hq, hqp⟩ := List.any_eq_true.mp hI
      simp only [Bool.and_eq_true, beq_iff_eq] at hqp
      constructor
      · intro h; cases h
      · rintro ⟨-, hall⟩
        exfalso
        apply hall q hq hqp.1
        rw [List.map_cons, List.mem_cons]
        exact Or.inl hqp.2
    | some sp =>
      obtain ⟨pid, s1, hsp⟩ : ∃ pid s1, sp = (s1, pid) := ⟨sp.2, sp.1, rfl⟩
      subst hsp
      dsimp only
      rw [ih]
      obtain ⟨-, -, -, -, -, hpages, hany⟩ :=
        insertPage_some_spec s document_id p.page_number p.content _ _ hI
      have hany2 : ∀ q ∈ s.pages, q.document_id = document_id →
          q.page_number ≠ p.page_number := by
        intro q hq hd hn
        exact hany (List.any_eq_true.mpr ⟨q, hq, by simp [hd, hn]⟩)
      rw [hpages]
      constructor
      · rintro ⟨hrest, hall⟩
        have hpn : p.page_number ∉ rest.map PageContent.page_number := by
          have := hall
            { id := s.next_page_rowid, document_id := document_id,
              page_number := p.page_number, content := p.content }
            (List.mem_append_right _ (List.mem_singleton.mpr rfl)) rfl
          exact this
        constructor
        · rw [List.map_cons, List.nodup_cons]
          exact ⟨hpn, hrest⟩
        · intro q hq hqd
          rw [List.map_cons, List.mem_cons]
          rintro (hmem | hmem)
          · exact hany2 q hq hqd hmem
          · exact hall q (List.mem_append_left _ hq) hqd hmem
      · rintro ⟨hcons, hall⟩
        rw [List.map_cons, List.nodup_cons] at hcons
        obtain ⟨hpn, hrest⟩ := hcons
        refine ⟨hrest, ?_⟩
        intro q hq hqd
        rcases List.mem_append.mp hq with hq2 | hq2
        · intro hmem
          apply hall q hq2 hqd
          rw [List.map_cons, List.mem_cons]
          exact Or.inr hmem
        · rw [List.mem_singleton.mp hq2]
          exact hpn

theorem deletePagesByDoc_no_doc_rows (s : Store) (document_id : Nat) :
    ∀ q ∈ (deletePagesByDoc s document_id).pages, q.document_id ≠ document_id := by
  intro q hq
  have hmem := List.mem_filter.mp hq
  simpa using hmem.2

/-- C9 counterexample: a document whose split yields two pages with the
same page number 1 — `index_document_enhanced` raises
`IntegrityError` (the plain `INSERT INTO pages` hits the
UNIQUE(document_id, page_number) constraint); it neither succeeds nor
overwrites. -/
theorem claim_C9_counterexample :
    (index_document_enhanced c9fs emptyDB "f" "d" "").2 =
      Except.error IndexError.integrityError := by
  decide

/-- C9 (amended): page numbers are not required to be sequential —
indexing succeeds for ANY duplicate-free page-number sequence (in
document order), returning the unit count; but when two pages carry the
same page number, persisting FAILS with a uniqueness violation
(`sqlite3.IntegrityError`) — the later page does not overwrite the
earlier one. -/
theorem claim_C9_amended (fs : FileSystem) (db : DBConn) (path name title : String)
    (pages : List (Nat × String))
    (hfs : fsLookup fs path = some (FileContent.valid pages)) :
    ((pages.map Prod.fst).Nodup →
      (index_document_enhanced fs db path name title).2 =
        Except.ok (parse_markdown_document_enhanced name pages).2.length)
    ∧ (¬ (pages.map Prod.fst).Nodup →
      (index_document_enhanced fs db path name title).2 =
        Except.error IndexError.integrityError) := by
  have hnums :
      (parse_markdown_document_enhanced name pages).1.map PageContent.page_number =
        pages.map Prod.fst := by
    show (pages.map fun p =>
        ({ page_number := p.1, content := pyStrip p.2, document_name := name } :
          PageContent)).map PageContent.page_number = pages.map Prod.fst
    rw [List.map_map]
    rfl
  have hloop := insertPagesLoop_ok_iff
    (insertOrReplaceDocument db.store name title path).2
    (parse_markdown_document_enhanced name pages).1
    (deletePagesByDoc
      (deleteArticlesByDoc (insertOrReplaceDocument db.store name title path).1
        (insertOrReplaceDocument db.store name title path).2)
      (insertOrReplaceDocument db.store name title path).2)
    []
  rw [hnums] at hloop
  have hvac : ∀ q ∈ (deletePagesByDoc
      (deleteArticlesByDoc (insertOrReplaceDocument db.store name title path).1
        (insertOrReplaceDocument db.store name title path).2)
      (insertOrReplaceDocument db.store name title path).2).pages,
      q.document_id = (insertOrReplaceDocument db.store name title path).2 →
      q.page_number ∉ pages.map Prod.fst := by
    intro q hq hqd
    exact absurd hqd (deletePagesByDoc_no_doc_rows _ _ q hq)
  constructor
  · intro hnd
    have hok : (insertPagesLoop (insertOrReplaceDocument db.store name title path).2
        (deletePagesByDoc
          (deleteArticlesByDoc (insertOrReplaceDocument db.store name title path).1
            (insertOrReplaceDocument db.store name title path).2)
          (insertOrReplaceDocument db.store name title path).2)
        [] (parse_markdown_document_enhanced name pages).1).2.2 = true :=
      hloop.mpr ⟨hnd, hvac⟩
    unfold index_document_enhanced
    rw [hfs]
    dsimp only
    rw [if_pos hok]
  · intro hnd
    have hok : ¬ (insertPagesLoop (insertOrReplaceDocument db.store name title path).2
        (deletePagesByDoc
          (deleteArticlesByDoc (insertOrReplaceDocument db.store name title path).1
            (insertOrReplaceDocument db.store name title path).2)
          (insertOrReplaceDocument db.store name title path).2)
        [] (parse_markdown_document_enhanced name pages).1).2.2 = true := by
      intro hk
      exact hnd (hloop.mp hk).1
    unfold index_document_enhanced
    rw [hfs]
    dsimp only
    rw [if_neg hok]

/-- Witness for C9 (amended) at the duplicate-page-number document. -/
theorem claim_C9_witness :
    (([(1, "x"), (1, "y")].map (Prod.fst (β := String))).Nodup →
      (index_document_enhanced c9fs emptyDB "f" "d" "").2 =
        Except.ok (parse_markdown_document_enhanced "d" [(1, "x"), (1, "y")]).2.length)
    ∧ (¬ (([(1, "x"), (1, "y")].map (Prod.fst (β := String))).Nodup) →
      (index_document_enhanced c9fs emptyDB "f" "d" "").2 =
        Except.error IndexError.integrityError) :=
  claim_C9_amended c9fs emptyDB "f" "d" "" [(1, "x"), (1, "y")] (by decide)

/-! ## Claim C1: re-indexing a document name -/

theorem find?_key_unique {α : Type} (key : α → Nat) :
    ∀ (l : List α), (l.map key).Nodup → ∀ a ∈ l,
      l.find? (fun x => key x == key a) = some a := by
  intro l
  induction l with
  | nil => intro _ a ha; cases ha
  | cons b bs ih =>
    intro hnd a ha
    rw [List.map_cons, List.nodup_cons] at hnd
    obtain ⟨hb, hnd2⟩ := hnd
    rcases List.mem_cons.mp ha with rfl | ha2
    · rw [List.find?_cons_of_pos _ (by simp)]
    · have hne : ¬ (key b == key a) = true := by
        intro h
        apply hb
        rw [beq_iff_eq] at h
        rw [h]
        exact List.mem_map_of_mem key ha2
      have hfalse : (key b == key a) = false := eq_false_of_ne_true hne
      rw [List.find?_cons]
      show (match key b == key a with
        | true => some b
        | false => bs.find? fun x => key x == key a) = some a
      rw [hfalse]
      exact ih hnd2 a ha2

theorem insertPagesLoop_preserves (document_id : Nat) :
    ∀ (ps : List PageContent) (s : Store) (m : List (Nat × Nat)),
      (insertPagesLoop document_id s m ps).1.documents = s.documents ∧
      (insertPagesLoop document_id s m ps).1.articles = s.articles ∧
      (insertPagesLoop document_id s m ps).1.articles_fts = s.articles_fts ∧
      (insertPagesLoop document_id s m ps).1.next_document_rowid =
        s.next_document_rowid ∧
      (insertPagesLoop document_id s m ps).1.next_article_rowid =
        s.next_article_rowid := by
  intro ps
  induction ps with
  | nil => intro s m; exact ⟨rfl, rfl, rfl, rfl, rfl⟩
  | cons p rest ih =>
    intro s m
    unfold insertPagesLoop
    cases hI : insertPage s document_id p.page_number p.content with
    | none => exact ⟨rfl, rfl, rfl, rfl, rfl⟩
    | some sp =>
      obtain ⟨pid, s1, hsp⟩ : ∃ pid s1, sp = (s1, pid) := ⟨sp.2, sp.1, rfl⟩
      subst hsp
      dsimp only
      obtain ⟨h1, h2, h3, h4, h5, -, -⟩ := insertPage_some_spec _ _ _ _ _ _ hI
      obtain ⟨g1, g2, g3, g4, g5⟩ := ih s1 (m ++ [(p.page_number, pid)])
      exact ⟨g1.trans h1, g2.trans h2, g3.trans h3, g4.trans h4, g5.trans h5⟩

theorem mem_enumFrom' :
    ∀ (l : List Article) (n : Nat) (x : Nat × Article), x ∈ enumFrom' n l →
      n ≤ x.1 ∧ x.1 < n + l.length ∧ x.2 ∈ l := by
  intro l
  induction l with
  | nil => intro n x hx; cases hx
  | cons a as ih =>
    intro n x hx
    rcases List.mem_cons.mp hx with rfl | hx2
    · exact ⟨le_rfl, by simp, List.mem_cons_self a as⟩
    · obtain ⟨h1, h2, h3⟩ := ih (n + 1) x hx2
      refine ⟨by omega, by simp only [List.length_cons]; omega,
        List.mem_cons_of_mem a h3⟩

theorem enumFrom'_fst_nodup :
    ∀ (l : List Article) (n : Nat), ((enumFrom' n l).map Prod.fst).Nodup := by
  intro l
  induction l with
  | nil => intro n; exact List.nodup_nil
  | cons a as ih =>
    intro n
    show (n :: (enumFrom' (n + 1) as).map Prod.fst).Nodup
    rw [List.nodup_cons]
    refine ⟨?_, ih (n + 1)⟩
    intro hmem
    obtain ⟨x, hx, hfst⟩ := List.mem_map.mp hmem
    have := (mem_enumFrom' as (n + 1) x hx).1
    omega

theorem enum_rows_strip (document_id : Nat) (page_ids : List (Nat × Nat)) :
    ∀ (units : List Article) (n : Nat),
      (((enumFrom' n units).map
        (fun iu => articleRowOf document_id page_ids iu.1 iu.2)).map stripRow) =
        units.map stripUnit := by
  intro units
  induction units with
  | nil => intro n; rfl
  | cons u us ih =>
    intro n
    show stripRow (articleRowOf document_id page_ids n u) ::
        ((enumFrom' (n + 1) us).map
          (fun iu => articleRowOf document_id page_ids iu.1 iu.2)).map stripRow =
      stripUnit u :: us.map stripUnit
    rw [ih (n + 1)]
    rfl

theorem deleteArticlesByDoc_fresh (s : Store) (document_id : Nat)
    (h : ∀ a ∈ s.articles, a.document_id ≠ document_id) :
    deleteArticlesByDoc s document_id = s := by
  have h1 : s.articles.filter (fun a => a.document_id == document_id) = [] :=
    List.filter_eq_nil_iff.mpr (fun a ha => by simp [h a ha])
  have h2 : s.articles.filter (fun a => a.document_id != document_id) = s.articles :=
    List.filter_eq_self.mpr (fun a ha => by simp [h a ha])
  show Store.mk s.documents s.pages
      (s.articles.filter (fun a => a.document_id != document_id))
      (s.articles_fts.filter
        (fun f => (s.articles.filter (fun a => a.document_id == document_id)).all
          (fun a => a.id != f.article_id)))
      s.pages_fts s.next_document_rowid s.next_page_rowid s.next_article_rowid = s
  rw [h1, h2]
  have h3 : s.articles_fts.filter
      (fun f => List.all ([] : List ArticleRow) (fun a => a.id != f.article_id)) =
        s.articles_fts :=
    List.filter_eq_self.mpr (fun f _ => rfl)
  rw [h3]

theorem list_map_id_of {α : Type} (f : α → α) :
    ∀ l : List α, (∀ a ∈ l, f a = a) → l.map f = l := by
  intro l
  induction l with
  | nil => intro _; rfl
  | cons a as ih =>
    intro h
    rw [List.map_cons, h a (List.mem_cons_self a as),
      ih (fun b hb => h b (List.mem_cons_of_mem a hb))]

theorem index_ok_spec (fs : FileSystem) (db : DBConn) (path name title : String)
    (pages : List (Nat × String)) (db' : DBConn) (n : Nat)
    (hwf : WF db.store)
    (hfs : fsLookup fs path = some (FileContent.valid pages))
    (hok : index_document_enhanced fs db path name title = (db', Except.ok n)) :
    ∃ rows : List ArticleRow,
      db'.store.articles = db.store.articles ++ rows ∧
      rows.map stripRow =
        ((parse_markdown_document_enhanced name pages).2).map stripUnit ∧
      (∀ r ∈ rows, r.document_id = db.store.next_document_rowid) ∧
      (∀ a ∈ db.store.articles, a.document_id ≠ db.store.next_document_rowid) ∧
      db'.store.articles_fts =
        db.store.articles_fts ++ rows.map (ftsRowOfArticle name) ∧
      db'.store.documents.filter (fun d => d.name == name) =
        [{ id := db.store.next_document_rowid, name := name, title := title,
           file_path := path,
           pages_count :=
             maxPageNumber (parse_markdown_document_enhanced name pages).1 }] ∧
      (∀ d ∈ db'.store.documents, d.name ≠ name → d ∈ db.store.documents) ∧
      WF db'.store := by
  obtain ⟨hndoc, hdoclt, hnart, hartlt, hartdoc⟩ := hwf
  have hfresh : ∀ a ∈ db.store.articles, a.document_id ≠ db.store.next_document_rowid :=
    fun a ha => Nat.ne_of_lt (hartdoc a ha)
  unfold index_document_enhanced at hok
  rw [hfs] at hok
  dsimp only at hok
  have hdel : deleteArticlesByDoc (insertOrReplaceDocument db.store name title path).1
      (insertOrReplaceDocument db.store name title path).2 =
      (insertOrReplaceDocument db.store name title path).1 := by
    apply deleteArticlesByDoc_fresh
    intro a ha
    exact hfresh a ha
  rw [hdel] at hok
  cases hcond : (insertPagesLoop (insertOrReplaceDocument db.store name title path).2
      (deletePagesByDoc (insertOrReplaceDocument db.store name title path).1
        (insertOrReplaceDocument db.store name title path).2)
      [] (parse_markdown_document_enhanced name pages).1).2.2 with
  | false =>
    rw [if_neg (fun hcontra => by rw [hcontra] at hcond; exact Bool.noConfusion hcond)]
      at hok
    exact absurd (congrArg Prod.snd hok) (by simp)
  | true =>
    rw [if_pos hcond] at hok
    rw [Prod.mk.injEq] at hok
    obtain ⟨hdb', -⟩ := hok
    subst hdb'
    set A := insertOrReplaceDocument db.store name title path with hA
    set P := parse_markdown_document_enhanced name pages with hP
    set L := insertPagesLoop A.2 (deletePagesByDoc A.1 A.2) [] P.1 with hL
    set U := updatePagesCount (insertArticles A.2 L.2.1 L.1 P.2) A.2
      (maxPageNumber P.1) with hU
    have hA2 : A.2 = db.store.next_document_rowid := rfl
    have hA1docs : A.1.documents =
        db.store.documents.filter (fun d => d.name != name) ++
          [{ id := db.store.next_document_rowid, name := name, title := title,
             file_path := path, pages_count := 0 }] := rfl
    have hA1arts : A.1.articles = db.store.articles := rfl
    have hA1fts : A.1.articles_fts = db.store.articles_fts := rfl
    have hA1ndoc : A.1.next_document_rowid = db.store.next_document_rowid + 1 := rfl
    have hA1nart : A.1.next_article_rowid = db.store.next_article_rowid := rfl
    obtain ⟨hLdocs, hLarts, hLfts, hLndoc, hLnart⟩ :=
      insertPagesLoop_preserves A.2 P.1 (deletePagesByDoc A.1 A.2) []
    have hLdocs2 : L.1.documents = A.1.documents := hLdocs
    have hLarts2 : L.1.articles = A.1.articles := hLarts
    have hLfts2 : L.1.articles_fts = A.1.articles_fts := hLfts
    have hLndoc2 : L.1.next_document_rowid = A.1.next_document_rowid := hLndoc
    have hLnart2 : L.1.next_article_rowid = A.1.next_article_rowid := hLnart
    have hdocname : docNameOf L.1 A.2 = name := by
      unfold docNameOf
      rw [hLdocs2, hA1docs, hA2, List.find?_append]
      have hnone : (db.store.documents.filter (fun d => d.name != name)).find?
          (fun d => d.id == db.store.next_document_rowid) = none :=
        List.find?_eq_none.mpr (fun d hd => by
          have hlt := hdoclt d (List.mem_of_mem_filter hd)
          simp [Nat.ne_of_lt hlt])
      rw [hnone]
      simp
    have hUarts : U.articles = db.store.articles ++
        (enumFrom' db.store.next_article_rowid P.2).map
          (fun iu => articleRowOf A.2 L.2.1 iu.1 iu.2) := by
      show L.1.articles ++ (enumFrom' L.1.next_article_rowid P.2).map
          (fun iu => articleRowOf A.2 L.2.1 iu.1 iu.2) = _
      rw [hLarts2, hA1arts, hLnart2, hA1nart]
    have hUfts : U.articles_fts = db.store.articles_fts ++
        ((enumFrom' db.store.next_article_rowid P.2).map
          (fun iu => articleRowOf A.2 L.2.1 iu.1 iu.2)).map (ftsRowOfArticle name) := by
      show L.1.articles_fts ++ ((enumFrom' L.1.next_article_rowid P.2).map
          (fun iu => articleRowOf A.2 L.2.1 iu.1 iu.2)).map
            (ftsRowOfArticle (docNameOf L.1 A.2)) = _
      rw [hdocname, hLfts2, hA1fts, hLnart2, hA1nart]
    have hUdocs : U.documents =
        db.store.documents.filter (fun d => d.name != name) ++
          [{ id := db.store.next_document_rowid, name := name, title := title,
             file_path := path, pages_count := maxPageNumber P.1 }] := by
      show L.1.documents.map (fun d =>
          if d.id == A.2 then { d with pages_count := maxPageNumber P.1 } else d) = _
      rw [hLdocs2, hA1docs, List.map_append]
      congr 1
      · apply list_map_id_of
        intro d hd
        have hlt := hdoclt d (List.mem_of_mem_filter hd)
        rw [if_neg]
        rw [hA2]
        simp [Nat.ne_of_lt hlt]
      · rw [List.map_cons, List.map_nil, if_pos (by rw [hA2]; simp)]
    have hUndoc : U.next_document_rowid = db.store.next_document_rowid + 1 := by
      show L.1.next_document_rowid = _
      rw [hLndoc2, hA1ndoc]
    have hUnart : U.next_article_rowid = db.store.next_article_rowid + P.2.length := by
      show L.1.next_article_rowid + P.2.length = _
      rw [hLnart2, hA1nart]
    have hrowids : ((enumFrom' db.store.next_article_rowid P.2).map
        (fun iu => articleRowOf A.2 L.2.1 iu.1 iu.2)).map ArticleRow.id =
        (enumFrom' db.store.next_article_rowid P.2).map Prod.fst := by
      rw [List.map_map]
      exact List.map_congr_left (fun iu _ => rfl)
    refine ⟨(enumFrom' db.store.next_article_rowid P.2).map
      (fun iu => articleRowOf A.2 L.2.1 iu.1 iu.2),
      hUarts, enum_rows_strip A.2 L.2.1 P.2 db.store.next_article_rowid, ?_,
      hfresh, hUfts, ?_, ?_, ?_⟩
    · intro r hr
      obtain ⟨iu, hiu, hr2⟩ := List.mem_map.mp hr
      rw [← hr2]
      rfl
    · rw [hUdocs, List.filter_append]
      have hold : (db.store.documents.filter (fun d => d.name != name)).filter
          (fun d => d.name == name) = [] :=
        List.filter_eq_nil_iff.mpr (fun d hd => by
          have h2 := (List.mem_filter.mp hd).2
          simp only [bne_iff_ne, ne_eq] at h2
          simp [h2])
      rw [hold]
      simp
    · intro d hd hname
      rw [hUdocs] at hd
      rcases List.mem_append.mp hd with hd2 | hd2
      · exact List.mem_of_mem_filter hd2
      · rw [List.mem_singleton.mp hd2] at hname
        exact absurd rfl hname
    · refine ⟨?_, ?_, ?_, ?_, ?_⟩
      · rw [hUdocs, List.map_append]
        rw [List.nodup_append]
        refine ⟨?_, by simp, ?_⟩
        · exact List.Nodup.sublist
            (List.Sublist.map DocumentRow.id (List.filter_sublist _)) hndoc
        · intro x hx1 hx2
          obtain ⟨d, hd, hdx⟩ := List.mem_map.mp hx1
          have hlt := hdoclt d (List.mem_of_mem_filter hd)
          simp only [List.map_cons, List.map_nil, List.mem_singleton] at hx2
          rw [hx2] at hdx
          rw [hdx] at hlt
          exact lt_irrefl _ hlt
      · intro d hd
        rw [hUndoc]
        rw [hUdocs] at hd
        rcases List.mem_append.mp hd with hd2 | hd2
        · exact Nat.lt_succ_of_lt (hdoclt d (List.mem_of_mem_filter hd2))
        · rw [List.mem_singleton.mp hd2]
          exact Nat.lt_succ_self _
      · rw [hUarts, List.map_append, List.nodup_append, hrowids]
        refine ⟨hnart, enumFrom'_fst_nodup P.2 _, ?_⟩
        intro x hx1 hx2
        obtain ⟨a, ha, hax⟩ := List.mem_map.mp hx1
        obtain ⟨iu, hiu, hix⟩ := List.mem_map.mp hx2
        have hb := (mem_enumFrom' P.2 _ iu hiu).1
        have hlt := hartlt a ha
        omega
      · intro a ha
        rw [hUnart]
        rw [hUarts] at ha
        rcases List.mem_append.mp ha with ha2 | ha2
        · exact lt_of_lt_of_le (hartlt a ha2) (Nat.le_add_right _ _)
        · obtain ⟨iu, hiu, hia⟩ := List.mem_map.mp ha2
          obtain ⟨h1, h2, -⟩ := mem_enumFrom' P.2 _ iu hiu
          rw [← hia]
          exact h2
      · intro a ha
        rw [hUndoc]
        rw [hUarts] at ha
        rcases List.mem_append.mp ha with ha2 | ha2
        · exact Nat.lt_succ_of_lt (hartdoc a ha2)
        · obtain ⟨iu, hiu, hia⟩ := List.mem_map.mp ha2
          rw [← hia]
          exact Nat.lt_succ_self _

/-- C1: after two successful `index_document_enhanced` calls for the
same document name with different contents, exactly the second
content's units are searchable under that name: every search result
carrying the document's name is (by its unit data) one of the second
parse's units, and — when the limit does not truncate — every unit of
the second parse whose own text matches the query's terms is returned.
(The first content's rows are left orphaned in `articles` by the
fresh-rowid `INSERT OR REPLACE`, but the inner join to `documents`
filters every one of them out of each search.) -/
theorem claim_C1_reindex
    (fs1 fs2 : FileSystem) (db db1 db2 : DBConn)
    (p1 p2 name t1 t2 query : String) (limit : Nat)
    (pages1 pages2 : List (Nat × String)) (n1 n2 : Nat)
    (terms : List String) (res : List SearchResult)
    (hwf : WF db.store)
    (hfs1 : fsLookup fs1 p1 = some (FileContent.valid pages1))
    (hfs2 : fsLookup fs2 p2 = some (FileContent.valid pages2))
    (hdiff : pages1 ≠ pages2)
    (h1 : index_document_enhanced fs1 db p1 name t1 = (db1, Except.ok n1))
    (h2 : index_document_enhanced fs2 db1 p2 name t2 = (db2, Except.ok n2))
    (hterms : ftsQueryTerms query = Except.ok terms)
    (hs : EnhancedLegalSearchEngine.search_enhanced db2 query limit = Except.ok res) :
    (∀ r ∈ res, r.document_name = name →
      stripRes r ∈ ((parse_markdown_document_enhanced name pages2).2).map stripUnit)
    ∧ ((db2.store.articles_fts.filter (matchRow terms)).length ≤ limit →
      ∀ u ∈ (parse_markdown_document_enhanced name pages2).2,
        matchesUnitData terms name (stripUnit u) = true →
        ∃ r ∈ res, r.document_name = name ∧ stripRes r = stripUnit u) := by
  obtain ⟨rows1, -, -, -, -, -, -, -, hwf1⟩ :=
    index_ok_spec fs1 db p1 name t1 pages1 db1 n1 hwf hfs1 h1
  obtain ⟨rows2, harts2, hstrip2, hdocid2, hold2, hfts2, hfilterdoc2, -, hwf2⟩ :=
    index_ok_spec fs2 db1 p2 name t2 pages2 db2 n2 hwf1 hfs2 h2
  rw [EnhancedLegalSearchEngine.search_enhanced, hterms] at hs
  dsimp only at hs
  injection hs with hres
  constructor
  · intro r hr hname
    rw [← hres] at hr
    have hrj := List.mem_of_mem_take hr
    obtain ⟨f, hf, hfr⟩ := List.mem_filterMap.mp hrj
    split at hfr
    · exact absurd hfr (by simp)
    · rename_i a ha
      split at hfr
      · exact absurd hfr (by simp)
      · rename_i d hd
        injection hfr with hfr
        subst hfr
        have hdname : d.name = name := hname
        have hdmem := List.mem_of_find?_eq_some hd
        have hdbeq := List.find?_some hd
        have hdid : d.id = a.document_id := by
          simpa using hdbeq
        have hdfil : d ∈ db2.store.documents.filter (fun x => x.name == name) :=
          List.mem_filter.mpr ⟨hdmem, by rw [hdname]; simp⟩
        rw [hfilterdoc2] at hdfil
        have hdeq := List.mem_singleton.mp hdfil
        have hadoc : a.document_id = db1.store.next_document_rowid := by
          rw [← hdid, hdeq]
        have hamem := List.mem_of_find?_eq_some ha
        rw [harts2] at hamem
        rcases List.mem_append.mp hamem with hamem2 | hamem2
        · exact absurd hadoc (hold2 a hamem2)
        · have hmem2 : stripRow a ∈ rows2.map stripRow := List.mem_map_of_mem _ hamem2
          rw [hstrip2] at hmem2
          exact hmem2
  · intro hlim u hu hmatch
    obtain ⟨hnd2, hlt2, hna2, -, -⟩ := hwf2
    have hjlen : ((db2.store.articles_fts.filter (matchRow terms)).filterMap (fun f =>
        match db2.store.articles.find? (fun a => a.id == f.article_id) with
        | none => none
        | some a =>
          match db2.store.documents.find? (fun d => d.id == a.document_id) with
          | none => none
          | some d => some (mkResult a d query))).length ≤ limit :=
      le_trans (List.length_filterMap_le _ _) hlim
    have htake := List.take_all_of_le hjlen
    have hin : stripUnit u ∈
        ((parse_markdown_document_enhanced name pages2).2).map stripUnit :=
      List.mem_map_of_mem _ hu
    rw [← hstrip2] at hin
    obtain ⟨r0, hr0, hstrip0⟩ := List.mem_map.mp hin
    have hf0 : ftsRowOfArticle name r0 ∈ db2.store.articles_fts := by
      rw [hfts2]
      exact List.mem_append_right _ (List.mem_map_of_mem _ hr0)
    have hmatch0 : matchRow terms (ftsRowOfArticle name r0) = true := by
      unfold matchRow
      rw [List.all_eq_true]
      intro t ht
      have hm := (List.all_eq_true.mp hmatch) t ht
      rw [← hstrip0] at hm
      have hexp : ftsTokens (ftsRowOfArticle name r0) =
          fts5Tokens (Nat.repr r0.id) ++ unitTextTokens name (stripRow r0) := by
        simp only [ftsTokens, unitTextTokens, ftsRowOfArticle, stripRow,
          List.append_assoc]
      show List.elem t (ftsTokens (ftsRowOfArticle name r0)) = true
      rw [hexp]
      simp only [List.elem_eq_mem, decide_eq_true_eq] at hm ⊢
      exact List.mem_append_right _ hm
    have hfilter0 : ftsRowOfArticle name r0 ∈
        db2.store.articles_fts.filter (matchRow terms) :=
      List.mem_filter.mpr ⟨hf0, hmatch0⟩
    have hr0mem : r0 ∈ db2.store.articles := by
      rw [harts2]
      exact List.mem_append_right _ hr0
    have hfindA : db2.store.articles.find?
        (fun x => x.id == (ftsRowOfArticle name r0).article_id) = some r0 := by
      show db2.store.articles.find? (fun x => x.id == r0.id) = some r0
      exact find?_key_unique ArticleRow.id db2.store.articles hna2 r0 hr0mem
    set nd : DocumentRow :=
      { id := db1.store.next_document_rowid, name := name, title := t2,
        file_path := p2,
        pages_count :=
          maxPageNumber (parse_markdown_document_enhanced name pages2).1 } with hnd
    have hnewmem : nd ∈ db2.store.documents := by
      apply List.mem_of_mem_filter (p := fun d => d.name == name)
      rw [hfilterdoc2]
      exact List.mem_singleton.mpr rfl
    have hr0doc : r0.document_id = db1.store.next_document_rowid := hdocid2 r0 hr0
    have hfindD : db2.store.documents.find? (fun x => x.id == r0.document_id) =
        some nd := by
      rw [hr0doc]
      exact find?_key_unique DocumentRow.id db2.store.documents hnd2 nd hnewmem
    refine ⟨mkResult r0 nd query, ?_, rfl, ?_⟩
    · rw [← hres, htake]
      apply List.mem_filterMap.mpr
      refine ⟨ftsRowOfArticle name r0, hfilter0, ?_⟩
      simp only [hfindA, hfindD]
    · show stripRow r0 = stripUnit u
      exact hstrip0

/-- Witness for C1: `doc` indexed from version 1 then re-indexed from
version 2; the query "second" returns exactly the version-2 unit. -/
theorem claim_C1_witness :
    (∀ r ∈ [c1res], r.document_name = "doc" →
      stripRes r ∈ ((parse_markdown_document_enhanced "doc"
        [(1, "second content unityy")]).2).map stripUnit)
    ∧ ((c1db2.store.articles_fts.filter (matchRow ["second"])).length ≤ 10 →
      ∀ u ∈ (parse_markdown_document_enhanced "doc" [(1, "second content unityy")]).2,
        matchesUnitData ["second"] "doc" (stripUnit u) = true →
        ∃ r ∈ [c1res], r.document_name = "doc" ∧ stripRes r = stripUnit u) :=
  claim_C1_reindex c1fs c1fs emptyDB c1db1 c1db2 "p1" "p2" "doc" "" "" "second" 10
    [(1, "first content unitxx")] [(1, "second content unityy")] 1 1 ["second"]
    [c1res]
    (by decide) (by decide) (by decide) (by decide) (by decide) (by decide)
    (by decide) (by decide)

end LegalSearch
